import Mathlib

/-!
Verification of the civil date/time library `bigqueryGoDate` (src/date.go).

The library's three value types (`Date`, `Time`, `DateTime`) delegate all
calendar arithmetic to Go's `time` package.  That package is external to the
repository, so we embed its documented behaviour for the `time.UTC` location
(the only location the library's own code ever passes): an absolute instant
is the integer number of nanoseconds since the Unix epoch
1970-01-01T00:00:00 UTC, and `time.Date`, `Time.Date`, `Time.Clock`,
`Time.Nanosecond`, `Time.AddDate`, `Time.Unix`, `Time.Before`,
`Time.Compare` and `time.Parse` are modelled on that representation with the
proleptic Gregorian calendar and Go's field-normalization rules
(out-of-range components carry into the next larger unit).

Go strings are byte sequences; we model them as `List Nat` of byte values.
-/

namespace BigqueryGoDate

/-! ### The proleptic Gregorian calendar (Go `time` package internals) -/

/-- Leap-year test of the proleptic Gregorian calendar (Go `time.isLeap`). -/
def isLeap (y : Int) : Bool := (y % 4 == 0 && y % 100 != 0) || y % 400 == 0

/-- Number of days of year `y`. -/
def daysInYear (y : Int) : Int := if isLeap y then 366 else 365

/-- Number of days of month `m` of year `y` (Go `time.daysIn`), for `m` in 1..12. -/
def daysInMonth (y m : Int) : Int :=
  if m = 2 then (if isLeap y then 29 else 28)
  else if m = 4 ∨ m = 6 ∨ m = 9 ∨ m = 11 then 30
  else 31

/-- Days of year `y` strictly before month `m` (Go `daysBefore`), for `m` in 1..13. -/
def daysBeforeMonth (y m : Int) : Int :=
  (if 2 < m ∧ isLeap y then 1 else 0) +
  (if m ≤ 1 then 0 else if m = 2 then 31 else if m = 3 then 59 else if m = 4 then 90
   else if m = 5 then 120 else if m = 6 then 151 else if m = 7 then 181
   else if m = 8 then 212 else if m = 9 then 243 else if m = 10 then 273
   else if m = 11 then 304 else if m = 12 then 334 else 365)

/-- Days from the Unix epoch 1970-01-01 to `y`-01-01 (proleptic Gregorian).
`(y+3)/4 - (y+99)/100 + (y+399)/400` counts the leap years among 0..y-1
(negative for negative `y`), and 719528 is the day count of the epoch
relative to 0000-01-01. -/
def daysBeforeYear (y : Int) : Int :=
  365 * y + (y + 3) / 4 - (y + 99) / 100 + (y + 399) / 400 - 719528

/-- Day count since the Unix epoch of the civil triple `(y, m, d)`, with Go
`time.Date`'s normalization: the month is reduced into 1..12 carrying into
the year, and the day is added as a plain offset from the first of the
month (so day 0 or day 32 carries into the adjacent month). -/
def civilToDays (y m d : Int) : Int :=
  daysBeforeYear (y + (m - 1) / 12) +
    daysBeforeMonth (y + (m - 1) / 12) ((m - 1) % 12 + 1) + (d - 1)

/-- Strip whole years off a day count: starting at January 1 of year `y`
plus `rem` days, advance the year while `rem` still holds a full year.
The `fuel` argument only bounds the recursion depth (each step consumes at
least 365 days, so `rem + 1` steps always suffice); it keeps the definition
structurally recursive and hence kernel-computable. -/
def peelYearsF : Nat → Int → Nat → Int × Nat
  | 0, y, rem => (y, rem)
  | fuel + 1, y, rem =>
      if (daysInYear y).toNat ≤ rem then peelYearsF fuel (y + 1) (rem - (daysInYear y).toNat)
      else (y, rem)

def peelYears (y : Int) (rem : Nat) : Int × Nat := peelYearsF (rem + 1) y rem

/-- Strip whole months (of year `y`) off a day count inside the year.
At most eleven steps are taken, so fuel 12 always suffices. -/
def peelMonthsF : Nat → Int → Int → Nat → Int × Nat
  | 0, _, m, rem => (m, rem)
  | fuel + 1, y, m, rem =>
      if m < 12 ∧ (daysInMonth y m).toNat ≤ rem then
        peelMonthsF fuel y (m + 1) (rem - (daysInMonth y m).toNat)
      else (m, rem)

def peelMonths (y m : Int) (rem : Nat) : Int × Nat := peelMonthsF 12 y m rem

/-- Inverse of `civilToDays`: the civil `(year, month, day)` triple of a day
count since the Unix epoch (the calendar part of Go `Time.Date` at UTC),
obtained by locating the 400-year era containing the day (146097 days per
era) and then peeling whole years and whole months. -/
def daysToCivil (z : Int) : Int × Int × Int :=
  let era := (z + 719528) / 146097
  let rem := ((z + 719528) % 146097).toNat
  let yr := peelYears (400 * era) rem
  let mr := peelMonths yr.1 1 yr.2
  (yr.1, mr.1, (mr.2 : Int) + 1)

/-! ### Instants (Go `time.Time` at UTC) -/

/-- Go `time.Date(y, m, d, hh, mi, ss, ns, time.UTC)`: the instant, in
nanoseconds since the Unix epoch, of the given (possibly out-of-range)
wall-clock components.  All components besides the month act linearly, which
is exactly Go's carry-based normalization. -/
def goDate (y m d hh mi ss ns : Int) : Int :=
  (civilToDays y m d * 86400 + hh * 3600 + mi * 60 + ss) * 1000000000 + ns

/-- Go `Time.Unix()`: whole seconds since the Unix epoch (the instant's
stored second, i.e. the floor). -/
def goUnix (t : Int) : Int := t / 1000000000

/-- Go `Time.Date()`: the (year, month, day) of an instant, at UTC. -/
def goDateParts (t : Int) : Int × Int × Int := daysToCivil (goUnix t / 86400)

/-- Go `Time.Clock()`: the (hour, minute, second) of an instant, at UTC. -/
def goClock (t : Int) : Int × Int × Int :=
  (goUnix t % 86400 / 3600, goUnix t % 86400 % 3600 / 60, goUnix t % 86400 % 60)

/-- Go `Time.Nanosecond()`. -/
def goNanosecond (t : Int) : Int := t % 1000000000

/-- Go `Time.AddDate(years, months, days)` at UTC: decompose the instant,
offset the civil fields, recompose with `time.Date`. -/
def goAddDate (t years months days : Int) : Int :=
  goDate ((goDateParts t).1 + years) ((goDateParts t).2.1 + months)
    ((goDateParts t).2.2 + days) (goClock t).1 (goClock t).2.1 (goClock t).2.2
    (goNanosecond t)

/-- Go `Time.Before` on instants. -/
def goBefore (t u : Int) : Bool := t < u

/-- Go `Time.Compare` on instants. -/
def goCompare (t u : Int) : Int := if t < u then -1 else if u < t then 1 else 0

/-! ### Calendar lemmas -/

theorem daysInYear_eq (y : Int) : daysInYear y = 365 ∨ daysInYear y = 366 := by
  unfold daysInYear; split <;> simp

theorem daysInMonth_bounds (y m : Int) : 28 ≤ daysInMonth y m ∧ daysInMonth y m ≤ 31 := by
  unfold daysInMonth
  split
  · split <;> omega
  · split <;> omega

theorem daysBeforeYear_succ (y : Int) :
    daysBeforeYear (y + 1) = daysBeforeYear y + daysInYear y := by
  simp only [daysBeforeYear, daysInYear, isLeap, Bool.or_eq_true, Bool.and_eq_true,
    beq_iff_eq, bne_iff_ne, ne_eq]
  split <;> omega

theorem daysBeforeYear_mono {a b : Int} (h : a ≤ b) :
    daysBeforeYear a ≤ daysBeforeYear b := by
  refine @Int.le_induction (fun v => daysBeforeYear a ≤ daysBeforeYear v) a ?_ ?_ b h
  · exact le_refl _
  · intro n hn ih
    rw [daysBeforeYear_succ]
    rcases daysInYear_eq n with h365 | h366 <;> omega

theorem daysBeforeMonth_one (y : Int) : daysBeforeMonth y 1 = 0 := by
  unfold daysBeforeMonth; norm_num

theorem daysBeforeMonth_succ (y m : Int) (h1 : 1 ≤ m) (h2 : m ≤ 12) :
    daysBeforeMonth y (m + 1) = daysBeforeMonth y m + daysInMonth y m := by
  interval_cases m <;>
    (simp only [daysBeforeMonth, daysInMonth]; cases h : isLeap y <;> simp [h])

theorem daysBeforeMonth_total (y : Int) : daysBeforeMonth y 13 = daysInYear y := by
  simp only [daysBeforeMonth, daysInYear]
  cases h : isLeap y <;> simp [h]

theorem daysBeforeMonth_mono (y : Int) {a b : Int} (h1 : 1 ≤ a) (hab : a ≤ b)
    (h2 : b ≤ 13) : daysBeforeMonth y a ≤ daysBeforeMonth y b := by
  refine @Int.le_induction
    (fun v => v ≤ 13 → daysBeforeMonth y a ≤ daysBeforeMonth y v) a ?_ ?_ b hab h2
  · intro
    exact le_refl _
  · intro n hn ih hn13
    have hn12 : n ≤ 12 := by omega
    rw [daysBeforeMonth_succ y n (by omega) hn12]
    have := daysInMonth_bounds y n
    have := ih (by omega)
    omega

theorem peelYearsF_spec : ∀ (fuel : Nat) (y : Int) (rem : Nat), rem < fuel →
    daysBeforeYear (peelYearsF fuel y rem).1 + ((peelYearsF fuel y rem).2 : Int)
        = daysBeforeYear y + rem
      ∧ ((peelYearsF fuel y rem).2 : Int) < daysInYear (peelYearsF fuel y rem).1 := by
  intro fuel
  induction fuel with
  | zero => intro y rem h; exact absurd h (by omega)
  | succ fuel ih =>
      intro y rem h
      rw [peelYearsF]
      by_cases hc : (daysInYear y).toNat ≤ rem
      · rw [if_pos hc]
        have hstep := ih (y + 1) (rem - (daysInYear y).toNat)
          (by rcases daysInYear_eq y with h3 | h3 <;> omega)
        refine ⟨?_, hstep.2⟩
        have h1 := hstep.1
        have h2 := daysBeforeYear_succ y
        rcases daysInYear_eq y with h3 | h3 <;> omega
      · rw [if_neg hc]
        refine ⟨rfl, ?_⟩
        show (rem : Int) < daysInYear y
        rcases daysInYear_eq y with h3 | h3 <;> omega

theorem peelYears_spec (y : Int) (rem : Nat) :
    daysBeforeYear (peelYears y rem).1 + ((peelYears y rem).2 : Int)
        = daysBeforeYear y + rem
      ∧ ((peelYears y rem).2 : Int) < daysInYear (peelYears y rem).1 :=
  peelYearsF_spec (rem + 1) y rem (by omega)

theorem peelMonthsF_spec : ∀ (fuel : Nat) (y m : Int) (rem : Nat), 1 ≤ m → m ≤ 12 →
    (12 - m).toNat < fuel →
    (rem : Int) + daysBeforeMonth y m < daysInYear y →
    daysBeforeMonth y (peelMonthsF fuel y m rem).1 + ((peelMonthsF fuel y m rem).2 : Int)
        = daysBeforeMonth y m + rem
      ∧ 1 ≤ (peelMonthsF fuel y m rem).1 ∧ (peelMonthsF fuel y m rem).1 ≤ 12
      ∧ ((peelMonthsF fuel y m rem).2 : Int) < daysInMonth y (peelMonthsF fuel y m rem).1 := by
  intro fuel
  induction fuel with
  | zero => intro y m rem h1 h2 hf hr; exact absurd hf (by omega)
  | succ fuel ih =>
      intro y m rem h1 h2 hf hr
      rw [peelMonthsF]
      by_cases hc : m < 12 ∧ (daysInMonth y m).toNat ≤ rem
      · rw [if_pos hc]
        have hsucc := daysBeforeMonth_succ y m h1 h2
        have hb := daysInMonth_bounds y m
        have hrec := ih y (m + 1) (rem - (daysInMonth y m).toNat) (by omega) (by omega)
          (by omega) (by omega)
        refine ⟨by omega, hrec.2.1, hrec.2.2.1, hrec.2.2.2⟩
      · rw [if_neg hc]
        have hb := daysInMonth_bounds y m
        refine ⟨rfl, h1, h2, ?_⟩
        show (rem : Int) < daysInMonth y m
        rcases not_and_or.mp hc with h12 | hlt
        · -- m = 12: the remainder fits in December because the year's months
          -- sum to the year's length.
          have hm12 : m = 12 := by omega
          subst hm12
          have ht := daysBeforeMonth_total y
          have hs := daysBeforeMonth_succ y 12 (by omega) (by omega)
          norm_num at hs
          omega
        · omega

theorem peelMonths_spec (y : Int) (m : Int) (rem : Nat) (h1 : 1 ≤ m) (h2 : m ≤ 12)
    (hr : (rem : Int) + daysBeforeMonth y m < daysInYear y) :
    daysBeforeMonth y (peelMonths y m rem).1 + ((peelMonths y m rem).2 : Int)
        = daysBeforeMonth y m + rem
      ∧ 1 ≤ (peelMonths y m rem).1 ∧ (peelMonths y m rem).1 ≤ 12
      ∧ ((peelMonths y m rem).2 : Int) < daysInMonth y (peelMonths y m rem).1 :=
  peelMonthsF_spec 12 y m rem h1 h2 (by omega) hr

theorem daysBeforeYear_era (e : Int) : daysBeforeYear (400 * e) = 146097 * e - 719528 := by
  unfold daysBeforeYear; omega

theorem norm_month_id {m : Int} (h1 : 1 ≤ m) (h2 : m ≤ 12) :
    (m - 1) / 12 = 0 ∧ (m - 1) % 12 = m - 1 := by omega

theorem civilToDays_canon (y m d : Int) (h1 : 1 ≤ m) (h2 : m ≤ 12) :
    civilToDays y m d = daysBeforeYear y + daysBeforeMonth y m + (d - 1) := by
  obtain ⟨hq, hr⟩ := norm_month_id h1 h2
  unfold civilToDays
  rw [hq, hr]
  norm_num

theorem daysToCivil_spec (z : Int) :
    civilToDays (daysToCivil z).1 (daysToCivil z).2.1 (daysToCivil z).2.2 = z
      ∧ 1 ≤ (daysToCivil z).2.1 ∧ (daysToCivil z).2.1 ≤ 12
      ∧ 1 ≤ (daysToCivil z).2.2
      ∧ (daysToCivil z).2.2 ≤ daysInMonth (daysToCivil z).1 (daysToCivil z).2.1 := by
  obtain ⟨y1, r1, hY⟩ : ∃ y1 r1,
      peelYears (400 * ((z + 719528) / 146097)) ((z + 719528) % 146097).toNat = (y1, r1) :=
    ⟨_, _, rfl⟩
  obtain ⟨m1, r2, hM⟩ : ∃ m1 r2, peelMonths y1 1 r1 = (m1, r2) := ⟨_, _, rfl⟩
  have hYs := peelYears_spec (400 * ((z + 719528) / 146097)) ((z + 719528) % 146097).toNat
  simp only [hY] at hYs
  have hMs := peelMonths_spec y1 1 r1 (by omega) (by omega)
      (by rw [daysBeforeMonth_one]; omega)
  simp only [hM] at hMs
  have hdc : daysToCivil z = (y1, m1, (r2 : Int) + 1) := by
    unfold daysToCivil
    simp only [hY, hM]
  simp only [hdc]
  have hbase : daysBeforeYear (400 * ((z + 719528) / 146097))
      = 146097 * ((z + 719528) / 146097) - 719528 := daysBeforeYear_era _
  have hone := daysBeforeMonth_one y1
  have hcv := civilToDays_canon y1 m1 ((r2 : Int) + 1) hMs.2.1 hMs.2.2.1
  refine ⟨?_, hMs.2.1, hMs.2.2.1, by omega, by have := hMs.2.2.2; omega⟩
  rw [hcv]
  omega

theorem civilToDays_daysToCivil (z : Int) :
    civilToDays (daysToCivil z).1 (daysToCivil z).2.1 (daysToCivil z).2.2 = z :=
  (daysToCivil_spec z).1

theorem daysToCivil_canon (y m d : Int) (h1 : 1 ≤ m) (h2 : m ≤ 12)
    (h3 : 1 ≤ d) (h4 : d ≤ daysInMonth y m) :
    daysToCivil (civilToDays y m d) = (y, m, d) := by
  obtain ⟨y1, m1, d1, hdc⟩ : ∃ y1 m1 d1, daysToCivil (civilToDays y m d) = (y1, m1, d1) :=
    ⟨_, _, _, rfl⟩
  obtain ⟨hz, hm1, hm2, hd1, hd2⟩ := daysToCivil_spec (civilToDays y m d)
  simp only [hdc] at hz hm1 hm2 hd1 hd2
  rw [civilToDays_canon y m d h1 h2] at hz
  rw [civilToDays_canon y1 m1 d1 hm1 hm2] at hz
  have hub : ∀ (a b c : Int), 1 ≤ b → b ≤ 12 → 1 ≤ c → c ≤ daysInMonth a b →
      0 ≤ daysBeforeMonth a b + (c - 1) ∧ daysBeforeMonth a b + (c - 1) < daysInYear a := by
    intro a b c hb1 hb2 hc1 hc2
    have hlow := daysBeforeMonth_mono a (le_refl 1) hb1 (by omega)
    rw [daysBeforeMonth_one] at hlow
    have hsucc := daysBeforeMonth_succ a b hb1 hb2
    have hmono := daysBeforeMonth_mono a (by omega : (1:Int) ≤ b + 1)
      (by omega : b + 1 ≤ 13) (by omega)
    have htot := daysBeforeMonth_total a
    omega
  have hA := hub y m d h1 h2 h3 h4
  have hB := hub y1 m1 d1 hm1 hm2 hd1 hd2
  have hyeq : y1 = y := by
    rcases lt_trichotomy y1 y with hlt | heq | hgt
    · have hstep := daysBeforeYear_succ y1
      have hmono := daysBeforeYear_mono (by omega : y1 + 1 ≤ y)
      omega
    · exact heq
    · have hstep := daysBeforeYear_succ y
      have hmono := daysBeforeYear_mono (by omega : y + 1 ≤ y1)
      omega
  rw [hyeq] at hz hB hd2
  have hmeq : m1 = m := by
    rcases lt_trichotomy m1 m with hlt | heq | hgt
    · have hs1 := daysBeforeMonth_succ y m1 hm1 hm2
      have hmono := daysBeforeMonth_mono y (by omega : (1:Int) ≤ m1 + 1)
        (by omega : m1 + 1 ≤ m) (by omega)
      omega
    · exact heq
    · have hs1 := daysBeforeMonth_succ y m h1 h2
      have hmono := daysBeforeMonth_mono y (by omega : (1:Int) ≤ m + 1)
        (by omega : m + 1 ≤ m1) (by omega)
      omega
  rw [hmeq] at hz
  have hdeq : d1 = d := by omega
  rw [hdc, hyeq, hmeq, hdeq]

theorem goDate_recover (y m d hh mi ss ns : Int)
    (hm1 : 1 ≤ m) (hm2 : m ≤ 12) (hd1 : 1 ≤ d) (hd2 : d ≤ daysInMonth y m)
    (hh1 : 0 ≤ hh) (hh2 : hh < 24) (hmi1 : 0 ≤ mi) (hmi2 : mi < 60)
    (hs1 : 0 ≤ ss) (hs2 : ss < 60) (hn1 : 0 ≤ ns) (hn2 : ns < 1000000000) :
    goDateParts (goDate y m d hh mi ss ns) = (y, m, d)
      ∧ goClock (goDate y m d hh mi ss ns) = (hh, mi, ss)
      ∧ goNanosecond (goDate y m d hh mi ss ns) = ns := by
  have hU : goUnix (goDate y m d hh mi ss ns)
      = civilToDays y m d * 86400 + (hh * 3600 + mi * 60 + ss) := by
    unfold goUnix goDate
    omega
  have hdays : goUnix (goDate y m d hh mi ss ns) / 86400 = civilToDays y m d := by
    rw [hU]; omega
  have hsod : goUnix (goDate y m d hh mi ss ns) % 86400 = hh * 3600 + mi * 60 + ss := by
    rw [hU]; omega
  refine ⟨?_, ?_, ?_⟩
  · unfold goDateParts
    rw [hdays]
    exact daysToCivil_canon y m d hm1 hm2 hd1 hd2
  · unfold goClock
    rw [hsod]
    have e1 : (hh * 3600 + mi * 60 + ss) / 3600 = hh := by omega
    have e2 : (hh * 3600 + mi * 60 + ss) % 3600 / 60 = mi := by omega
    have e3 : (hh * 3600 + mi * 60 + ss) % 60 = ss := by omega
    rw [e1, e2, e3]
  · unfold goNanosecond goDate
    omega

/-- Midnight instants: `time.Date(y, m, d, 0, 0, 0, 0, UTC)` falls on day
`civilToDays y m d` exactly, for arbitrary (even unnormalized) fields. -/
theorem goUnix_goDate_midnight (y m d : Int) :
    goUnix (goDate y m d 0 0 0 0) = civilToDays y m d * 86400 := by
  unfold goUnix goDate
  omega

/-! ### Go strings (byte sequences), digit formatting and parsing -/

/-- A Go string: a sequence of byte values. -/
abbrev GoStr := List Nat

/-- ASCII decimal digit test (Go `isDigit`). -/
def isDigitB (b : Nat) : Bool := 48 ≤ b && b ≤ 57

/-- Numeric value of a digit byte. -/
def digVal (b : Nat) : Int := (b : Int) - 48

/-- Value of a digit string read left to right (Go `atoi` on digits). -/
def digitsVal (l : GoStr) : Int := l.foldl (fun a b => 10 * a + (Int.ofNat b - 48)) 0

/-- Decimal digit bytes of a natural number, most significant first (what
`fmt.Sprintf("%d", n)` prints).  The `fuel` argument only bounds the
recursion depth (`n + 1` always suffices) to keep the definition
structurally recursive and kernel-computable. -/
def natToDigitsF : Nat → Nat → List Nat
  | 0, _ => []
  | fuel + 1, n => if n < 10 then [48 + n] else natToDigitsF fuel (n / 10) ++ [48 + n % 10]

def natToDigits (n : Nat) : List Nat := natToDigitsF (n + 1) n

/-- Zero-pad a digit string on the left to width `w`. -/
def padZ (w : Nat) (ds : List Nat) : List Nat := List.replicate (w - ds.length) 48 ++ ds

/-- Go `fmt.Sprintf` with a zero-padded width-`w` integer verb such as
`%04d`: for a negative argument the sign counts toward the width. -/
def fmtPad (w : Nat) (n : Int) : GoStr :=
  if n < 0 then 45 :: padZ (w - 1) (natToDigits n.natAbs) else padZ w (natToDigits n.toNat)

/-- Go `time.Parse` helper `getnum` with `fixed = true` on a two-digit
layout element ("01", "02", "04", "05"): exactly two digits. -/
def getnum2 : GoStr → Option (Int × GoStr)
  | a :: b :: rest =>
      if isDigitB a && isDigitB b then some (10 * digVal a + digVal b, rest) else none
  | _ => none

/-- The four-digit year layout element of Go `time.Parse` (`stdLongYear`):
exactly four digits, no sign. -/
def getnum4 : GoStr → Option (Int × GoStr)
  | a :: b :: c :: d :: rest =>
      if isDigitB a && isDigitB b && isDigitB c && isDigitB d then
        some (1000 * digVal a + 100 * digVal b + 10 * digVal c + digVal d, rest)
      else none
  | _ => none

/-- Go `getnum` with `fixed = false` (layout element "15"): one digit, or
two when the second byte is also a digit. -/
def getnum12 : GoStr → Option (Int × GoStr)
  | [a] => if isDigitB a then some (digVal a, []) else none
  | a :: b :: rest =>
      if isDigitB a then
        if isDigitB b then some (10 * digVal a + digVal b, rest)
        else some (digVal a, b :: rest)
      else none
  | _ => none

/-- A literal layout byte. -/
def litB (c : Nat) : GoStr → Option GoStr
  | b :: rest => if b = c then some rest else none
  | _ => none

/-- The maximal leading run of digit bytes, and the remainder. -/
def takeDigitsAll : GoStr → List Nat × GoStr
  | [] => ([], [])
  | b :: rest =>
      if isDigitB b then (b :: (takeDigitsAll rest).1, (takeDigitsAll rest).2)
      else ([], b :: rest)

/-- The trailing ".999999999" layout element of Go `time.Parse` together
with `parseNanoseconds`: an optional fraction introduced by '.' or ',' with
at least one digit.  The whole maximal digit run is consumed; only its
first nine digits contribute (`parseNanoseconds` truncates the text at ten
bytes), right-padded with zeros to a nanosecond count. -/
def parseFrac (s : GoStr) : Int × GoStr :=
  match s with
  | b :: c :: rest =>
      if (b == 46 || b == 44) && isDigitB c then
        (digitsVal ((takeDigitsAll (c :: rest)).1.take 9)
            * 10 ^ (9 - ((takeDigitsAll (c :: rest)).1.take 9).length),
          (takeDigitsAll (c :: rest)).2)
      else (0, s)
  | _ => (0, s)

/-- The layout string "2006-01-02". -/
def dateLayout : GoStr := [50, 48, 48, 54, 45, 48, 49, 45, 48, 50]

/-- The layout string "15:04:05.999999999". -/
def timeLayout : GoStr :=
  [49, 53, 58, 48, 52, 58, 48, 53, 46, 57, 57, 57, 57, 57, 57, 57, 57, 57]

/-- The layout string "2006-01-02T15:04:05.999999999". -/
def dateTimeLayout : GoStr := dateLayout ++ [84] ++ timeLayout

/-- The layout string "2006-01-02t15:04:05.999999999". -/
def dateTimeLayoutLower : GoStr := dateLayout ++ [116] ++ timeLayout

/-! ### Error values and scan inputs -/

/-- The dynamic type of a value presented to a scan adapter (what Go's `%T`
verb would print in the type-mismatch message). -/
inductive GoType where
  | tNil | tString | tBytes | tTime | tPtrTime | tPtrString | tPtrBytes
  | tCivilDate | tCivilTime | tCivilDateTime
deriving DecidableEq

/-- The two error shapes the library surfaces: `*time.ParseError` (carrying
the layout and the full offending input) from the parse functions, and the
`fmt.Errorf` type-mismatch error (carrying the offending input's dynamic
type) from the scan adapters. -/
inductive GoError where
  | parseErr (layout : GoStr) (value : GoStr)
  | typeMismatch (t : GoType)
deriving DecidableEq

/-- A dynamically-typed database value handed to a `Scan` method: the closed
set of input kinds named in the three adapters' type switches, plus `nil`
(an interface holding no value, which matches no type case) and the
`*T` pointer forms (`none` modelling a nil pointer). -/
inductive ScanValue where
  | vNil
  | vString (s : GoStr)
  | vBytes (b : GoStr)
  | vTime (t : Int)
  | vPtrTime (p : Option Int)
  | vPtrString (p : Option GoStr)
  | vPtrBytes (p : Option GoStr)
  | vCivilDate (y m d : Int)
  | vCivilTime (hh mi ss ns : Int)
  | vCivilDateTime (y m d hh mi ss ns : Int)
deriving DecidableEq

/-- The Go dynamic type of a scan input. -/
def ScanValue.typeName : ScanValue → GoType
  | .vNil => .tNil
  | .vString _ => .tString
  | .vBytes _ => .tBytes
  | .vTime _ => .tTime
  | .vPtrTime _ => .tPtrTime
  | .vPtrString _ => .tPtrString
  | .vPtrBytes _ => .tPtrBytes
  | .vCivilDate _ _ _ => .tCivilDate
  | .vCivilTime _ _ _ _ => .tCivilTime
  | .vCivilDateTime _ _ _ _ _ _ _ => .tCivilDateTime

/-! ### The `Date` type (src/date.go) -/

/-- src/date.go `Date`: year, month, day (`Month` has Go type `time.Month`,
an integer type). -/
structure Date where
  Year : Int
  Month : Int
  Day : Int
deriving DecidableEq

/-- src/date.go `DateOf`: the Date in which an instant occurs, in the
instant's location (UTC throughout this embedding). -/
def DateOf (t : Int) : Date :=
  ⟨(goDateParts t).1, (goDateParts t).2.1, (goDateParts t).2.2⟩

/-- The stepwise behaviour of Go `time.Parse("2006-01-02", s)`: four digits,
'-', two digits, '-', two digits, end of input, then the range checks
(month 1..12, day within the month).  Returns the parsed fields. -/
def parseDateFields (s : GoStr) : Option (Int × Int × Int) :=
  match getnum4 s with
  | none => none
  | some (y, r1) =>
  match litB 45 r1 with
  | none => none
  | some r2 =>
  match getnum2 r2 with
  | none => none
  | some (mo, r3) =>
  match litB 45 r3 with
  | none => none
  | some r4 =>
  match getnum2 r4 with
  | none => none
  | some (dd, r5) =>
  if r5 = [] ∧ 1 ≤ mo ∧ mo ≤ 12 ∧ 1 ≤ dd ∧ dd ≤ daysInMonth y mo then
    some (y, mo, dd)
  else none

/-- src/date.go `ParseDate`: `time.Parse("2006-01-02", s)` followed by
`DateOf`; on failure the zero Date and a parse error carrying the offending
text are returned. -/
def ParseDate (s : GoStr) : Date × Option GoError :=
  match parseDateFields s with
  | some (y, mo, dd) => (DateOf (goDate y mo dd 0 0 0 0), none)
  | none => (⟨0, 0, 0⟩, some (GoError.parseErr dateLayout s))

/-- src/date.go `Date.String`: `fmt.Sprintf("%04d-%02d-%02d", ...)`. -/
def Date.String (d : Date) : GoStr :=
  fmtPad 4 d.Year ++ [45] ++ fmtPad 2 d.Month ++ [45] ++ fmtPad 2 d.Day

/-- src/date.go `Date.In` at `time.UTC` (the only location the library
passes): 00:00:00 of the date. -/
def Date.In (d : Date) : Int := goDate d.Year d.Month d.Day 0 0 0 0

/-- src/date.go `Date.IsValid`. -/
def Date.IsValid (d : Date) : Bool := DateOf d.In == d

/-- src/date.go `Date.AddDays`. -/
def Date.AddDays (d : Date) (n : Int) : Date := DateOf (goAddDate d.In 0 0 n)

/-- src/date.go `Date.DaysSince`.  Go's integer division truncates toward
zero (`Int.tdiv`). -/
def Date.DaysSince (d s : Date) : Int := Int.tdiv (goUnix d.In - goUnix s.In) 86400

/-- src/date.go `Date.Before`: lexicographic on (Year, Month, Day). -/
def Date.Before (d d2 : Date) : Bool :=
  if d.Year ≠ d2.Year then d.Year < d2.Year
  else if d.Month ≠ d2.Month then d.Month < d2.Month
  else d.Day < d2.Day

/-- src/date.go `Date.After`. -/
def Date.After (d d2 : Date) : Bool := d2.Before d

/-- src/date.go `Date.Compare`. -/
def Date.Compare (d d2 : Date) : Int :=
  if d.Before d2 then -1 else if d.After d2 then 1 else 0

/-- src/date.go `Date.IsZero`. -/
def Date.IsZero (d : Date) : Bool := d.Year == 0 && d.Month == 0 && d.Day == 0

/-- src/date.go `Date.MarshalText`. -/
def Date.MarshalText (d : Date) : GoStr × Option GoError := (d.String, none)

/-- src/date.go `Date.UnmarshalText`: `*d, err = ParseDate(string(data))` —
the parse result (the zero Date when parsing fails) is always written. -/
def Date.UnmarshalText (_d : Date) (data : GoStr) : Date × Option GoError :=
  ParseDate data

/-- src/date.go `Date.Scan`.  The pointer receiver is modelled by passing
the old value in and returning the written value beside the error. -/
def Date.Scan (d : Date) (v : ScanValue) : Date × Option GoError :=
  match v with
  | .vNil => (⟨0, 0, 0⟩, none)
  | .vString s =>
      match ParseDate s with
      | (parsed, none) => (parsed, none)
      | (_, some e) => (d, some e)
  | .vTime t => (DateOf t, none)
  | .vCivilDate y m dd => (⟨y, m, dd⟩, none)
  | other => (d, some (GoError.typeMismatch other.typeName))

/-- src/date.go `Date.Value`: always the formatted text. -/
def Date.Value (d : Date) : GoStr × Option GoError := (d.String, none)

/-! ### The `Time` type (src/date.go) -/

/-- src/date.go `Time`: a time of day with nanosecond precision. -/
structure Time where
  Hour : Int
  Minute : Int
  Second : Int
  Nanosecond : Int
deriving DecidableEq

/-- src/date.go `TimeOf`: the wall-clock time of day of an instant. -/
def TimeOf (t : Int) : Time :=
  ⟨(goClock t).1, (goClock t).2.1, (goClock t).2.2, goNanosecond t⟩

/-- The stepwise behaviour of Go `time.Parse("15:04:05.999999999", s)`:
one-or-two-digit hour, ':', two-digit minute, ':', two-digit second, an
optional fraction, end of input, and the in-range checks on hour, minute
and second. -/
def parseTimeFields (s : GoStr) : Option (Int × Int × Int × Int) :=
  match getnum12 s with
  | none => none
  | some (hh, r1) =>
  match litB 58 r1 with
  | none => none
  | some r2 =>
  match getnum2 r2 with
  | none => none
  | some (mi, r3) =>
  match litB 58 r3 with
  | none => none
  | some r4 =>
  match getnum2 r4 with
  | none => none
  | some (ss, r5) =>
  if (parseFrac r5).2 = [] ∧ 0 ≤ hh ∧ hh < 24 ∧ 0 ≤ mi ∧ mi < 60 ∧ 0 ≤ ss ∧ ss < 60 then
    some (hh, mi, ss, (parseFrac r5).1)
  else none

/-- src/date.go `ParseTime`: `time.Parse("15:04:05.999999999", s)` followed
by `TimeOf`; the date components missing from the layout default to year 0,
January 1. -/
def ParseTime (s : GoStr) : Time × Option GoError :=
  match parseTimeFields s with
  | some (hh, mi, ss, ns) => (TimeOf (goDate 0 1 1 hh mi ss ns), none)
  | none => (⟨0, 0, 0, 0⟩, some (GoError.parseErr timeLayout s))

/-- src/date.go `Time.String`: `%02d:%02d:%02d`, and `.%09d` appended when
the nanosecond field is not zero. -/
def Time.String (t : Time) : GoStr :=
  fmtPad 2 t.Hour ++ [58] ++ fmtPad 2 t.Minute ++ [58] ++ fmtPad 2 t.Second ++
    (if t.Nanosecond == 0 then [] else 46 :: fmtPad 9 t.Nanosecond)

/-- src/date.go `Time.IsValid`: build a reference instant
`time.Date(2, 2, 2, hour, minute, second, nanosecond, UTC)`, decompose it
and compare. -/
def Time.IsValid (t : Time) : Bool :=
  TimeOf (goDate 2 2 2 t.Hour t.Minute t.Second t.Nanosecond) == t

/-- src/date.go `Time.IsZero`. -/
def Time.IsZero (t : Time) : Bool :=
  t.Hour == 0 && t.Minute == 0 && t.Second == 0 && t.Nanosecond == 0

/-- src/date.go `Time.Before`: lexicographic on the four fields. -/
def Time.Before (t t2 : Time) : Bool :=
  if t.Hour ≠ t2.Hour then t.Hour < t2.Hour
  else if t.Minute ≠ t2.Minute then t.Minute < t2.Minute
  else if t.Second ≠ t2.Second then t.Second < t2.Second
  else t.Nanosecond < t2.Nanosecond

/-- src/date.go `Time.After`. -/
def Time.After (t t2 : Time) : Bool := t2.Before t

/-- src/date.go `Time.Compare`. -/
def Time.Compare (t t2 : Time) : Int :=
  if t.Before t2 then -1 else if t.After t2 then 1 else 0

/-- src/date.go `Time.MarshalText`. -/
def Time.MarshalText (t : Time) : GoStr × Option GoError := (t.String, none)

/-- src/date.go `Time.UnmarshalText`: `*t, err = ParseTime(string(data))` —
the parse result (the zero Time when parsing fails) is always written. -/
def Time.UnmarshalText (_t : Time) (data : GoStr) : Time × Option GoError :=
  ParseTime data

/-- src/date.go `Time.Value`: always the formatted text. -/
def Time.Value (t : Time) : GoStr × Option GoError := (t.String, none)

/-- src/date.go `Time.Scan`.  In the `string`, `[]byte` and non-nil pointer
text cases Go writes `*t, err = ParseTime(...)`, so the parse result is
written even when parsing fails; nil pointers leave the value unchanged;
an input matching no case (including a nil interface) produces the
type-mismatch error. -/
def Time.Scan (t : Time) (v : ScanValue) : Time × Option GoError :=
  match v with
  | .vTime u => (TimeOf u, none)
  | .vPtrTime (some u) => (TimeOf u, none)
  | .vPtrTime none => (t, none)
  | .vString s => ParseTime s
  | .vPtrString (some s) => ParseTime s
  | .vPtrString none => (t, none)
  | .vBytes b => ParseTime b
  | .vPtrBytes (some b) => ParseTime b
  | .vPtrBytes none => (t, none)
  | .vCivilTime hh mi ss ns => (⟨hh, mi, ss, ns⟩, none)
  | other => (t, some (GoError.typeMismatch other.typeName))

/-! ### The `DateTime` type (src/date.go) -/

/-- src/date.go `DateTime`: a Date and a Time (deliberately not embedded). -/
structure DateTime where
  Date : Date
  Time : Time
deriving DecidableEq

/-- src/date.go `DateTimeOf`. -/
def DateTimeOf (t : Int) : DateTime := ⟨DateOf t, TimeOf t⟩

/-- The stepwise behaviour of Go
`time.Parse("2006-01-02T15:04:05.999999999", s)` with separator byte `sep`
('T' or 't'): the date part, the separator, the time part, an optional
fraction, end of input, and all the range checks. -/
def parseDateTimeFields (sep : Nat) (s : GoStr) :
    Option (Int × Int × Int × Int × Int × Int × Int) :=
  match getnum4 s with
  | none => none
  | some (y, r1) =>
  match litB 45 r1 with
  | none => none
  | some r2 =>
  match getnum2 r2 with
  | none => none
  | some (mo, r3) =>
  match litB 45 r3 with
  | none => none
  | some r4 =>
  match getnum2 r4 with
  | none => none
  | some (dd, r5) =>
  match litB sep r5 with
  | none => none
  | some r6 =>
  match getnum12 r6 with
  | none => none
  | some (hh, r7) =>
  match litB 58 r7 with
  | none => none
  | some r8 =>
  match getnum2 r8 with
  | none => none
  | some (mi, r9) =>
  match litB 58 r9 with
  | none => none
  | some r10 =>
  match getnum2 r10 with
  | none => none
  | some (ss, r11) =>
  if (parseFrac r11).2 = [] ∧ 1 ≤ mo ∧ mo ≤ 12 ∧ 1 ≤ dd ∧ dd ≤ daysInMonth y mo
      ∧ 0 ≤ hh ∧ hh < 24 ∧ 0 ≤ mi ∧ mi < 60 ∧ 0 ≤ ss ∧ ss < 60 then
    some (y, mo, dd, hh, mi, ss, (parseFrac r11).1)
  else none

/-- src/date.go `ParseDateTime`: try the upper-case layout, then the
lower-case one; on double failure return the zero value and the second
attempt's error (which carries the offending text). -/
def ParseDateTime (s : GoStr) : DateTime × Option GoError :=
  match parseDateTimeFields 84 s with
  | some (y, mo, dd, hh, mi, ss, ns) => (DateTimeOf (goDate y mo dd hh mi ss ns), none)
  | none =>
    match parseDateTimeFields 116 s with
    | some (y, mo, dd, hh, mi, ss, ns) => (DateTimeOf (goDate y mo dd hh mi ss ns), none)
    | none => (⟨⟨0, 0, 0⟩, ⟨0, 0, 0, 0⟩⟩, some (GoError.parseErr dateTimeLayoutLower s))

/-- src/date.go `DateTime.String`: date, 'T', time. -/
def DateTime.String (dt : DateTime) : GoStr := dt.Date.String ++ [84] ++ dt.Time.String

/-- src/date.go `DateTime.IsValid`. -/
def DateTime.IsValid (dt : DateTime) : Bool := dt.Date.IsValid && dt.Time.IsValid

/-- src/date.go `DateTime.In` at `time.UTC`. -/
def DateTime.In (dt : DateTime) : Int :=
  goDate dt.Date.Year dt.Date.Month dt.Date.Day dt.Time.Hour dt.Time.Minute
    dt.Time.Second dt.Time.Nanosecond

/-- src/date.go `DateTime.Before`: on instants at UTC. -/
def DateTime.Before (dt dt2 : DateTime) : Bool := goBefore dt.In dt2.In

/-- src/date.go `DateTime.After`. -/
def DateTime.After (dt dt2 : DateTime) : Bool := dt2.Before dt

/-- src/date.go `DateTime.Compare`: `Time.Compare` on instants at UTC. -/
def DateTime.Compare (dt dt2 : DateTime) : Int := goCompare dt.In dt2.In

/-- src/date.go `DateTime.IsZero`. -/
def DateTime.IsZero (dt : DateTime) : Bool := dt.Date.IsZero && dt.Time.IsZero

/-- src/date.go `DateTime.MarshalText`. -/
def DateTime.MarshalText (dt : DateTime) : GoStr × Option GoError := (dt.String, none)

/-- src/date.go `DateTime.UnmarshalText`: `*dt, err = ParseDateTime(...)` —
the parse result (the zero DateTime when parsing fails) is always written. -/
def DateTime.UnmarshalText (_dt : DateTime) (data : GoStr) : DateTime × Option GoError :=
  ParseDateTime data

/-- src/date.go `DateTime.Value`: always the formatted text. -/
def DateTime.Value (dt : DateTime) : GoStr × Option GoError := (dt.String, none)

/-- src/date.go `DateTime.Scan`.  Same conventions as `Time.Scan`; the
default case additionally logs the offending type before returning the
type-mismatch error (a side effect outside the value model). -/
def DateTime.Scan (dt : DateTime) (v : ScanValue) : DateTime × Option GoError :=
  match v with
  | .vTime u => (DateTimeOf u, none)
  | .vPtrTime (some u) => (DateTimeOf u, none)
  | .vPtrTime none => (dt, none)
  | .vCivilDateTime y m d hh mi ss ns => (⟨⟨y, m, d⟩, ⟨hh, mi, ss, ns⟩⟩, none)
  | .vString s => ParseDateTime s
  | .vPtrString (some s) => ParseDateTime s
  | .vPtrString none => (dt, none)
  | .vBytes b => ParseDateTime b
  | .vPtrBytes (some b) => ParseDateTime b
  | .vPtrBytes none => (dt, none)
  | other => (dt, some (GoError.typeMismatch other.typeName))

/-! ### Digit-string lemmas -/

theorem foldl_digits (l : GoStr) (a : Int) :
    l.foldl (fun x b => 10 * x + (Int.ofNat b - 48)) a
      = a * 10 ^ l.length + l.foldl (fun x b => 10 * x + (Int.ofNat b - 48)) 0 := by
  induction l generalizing a with
  | nil => simp
  | cons b bs ih =>
      simp only [List.foldl_cons, List.length_cons]
      rw [ih (10 * a + (Int.ofNat b - 48)), ih (10 * 0 + (Int.ofNat b - 48))]
      ring

theorem digitsVal_append_digit (l : GoStr) (b : Nat) :
    digitsVal (l ++ [b]) = 10 * digitsVal l + ((b : Int) - 48) := by
  unfold digitsVal
  rw [List.foldl_append]
  simp

theorem natToDigitsF_all_digits : ∀ (fuel n : Nat), n < fuel →
    ∀ b ∈ natToDigitsF fuel n, isDigitB b = true := by
  intro fuel
  induction fuel with
  | zero => intro n h; exact absurd h (by omega)
  | succ fuel ih =>
      intro n h
      rw [natToDigitsF]
      by_cases hlt : n < 10
      · rw [if_pos hlt]
        intro b hb
        simp only [List.mem_singleton] at hb
        subst hb
        simp only [isDigitB, Bool.and_eq_true, decide_eq_true_eq]
        omega
      · rw [if_neg hlt]
        intro b hb
        rcases List.mem_append.mp hb with h1 | h2
        · exact ih (n / 10) (by omega) b h1
        · simp only [List.mem_singleton] at h2
          subst h2
          simp only [isDigitB, Bool.and_eq_true, decide_eq_true_eq]
          omega

theorem natToDigits_all_digits (n : Nat) : ∀ b ∈ natToDigits n, isDigitB b = true :=
  natToDigitsF_all_digits (n + 1) n (by omega)

theorem digitsVal_natToDigitsF : ∀ (fuel n : Nat), n < fuel →
    digitsVal (natToDigitsF fuel n) = n := by
  intro fuel
  induction fuel with
  | zero => intro n h; exact absurd h (by omega)
  | succ fuel ih =>
      intro n h
      rw [natToDigitsF]
      by_cases hlt : n < 10
      · rw [if_pos hlt]
        simp only [digitsVal, List.foldl_cons, List.foldl_nil, Int.ofNat_eq_natCast]
        push_cast
        omega
      · rw [if_neg hlt]
        rw [digitsVal_append_digit, ih (n / 10) (by omega)]
        push_cast
        omega

theorem digitsVal_natToDigits (n : Nat) : digitsVal (natToDigits n) = n :=
  digitsVal_natToDigitsF (n + 1) n (by omega)

theorem natToDigitsF_length_le : ∀ (fuel n w : Nat), n < fuel → 1 ≤ w → n < 10 ^ w →
    (natToDigitsF fuel n).length ≤ w := by
  intro fuel
  induction fuel with
  | zero => intro n w h; exact absurd h (by omega)
  | succ fuel ih =>
      intro n w h hw hpow
      rw [natToDigitsF]
      by_cases hlt : n < 10
      · rw [if_pos hlt]
        simpa using hw
      · rw [if_neg hlt]
        rw [List.length_append]
        have hwne : w ≠ 1 := by
          rintro rfl
          norm_num at hpow
          omega
        have h10 : (10 : Nat) ^ w = 10 ^ (w - 1) * 10 := by
          conv_lhs => rw [show w = (w - 1) + 1 by omega]
          rw [pow_succ]
        have hn : n / 10 < 10 ^ (w - 1) := by
          rw [Nat.div_lt_iff_lt_mul (by norm_num)]
          omega
        have := ih (n / 10) (w - 1) (by omega) (by omega) hn
        simp only [List.length_singleton]
        omega

theorem natToDigits_length_le (n : Nat) : ∀ (w : Nat), 1 ≤ w → n < 10 ^ w →
    (natToDigits n).length ≤ w := fun w hw h =>
  natToDigitsF_length_le (n + 1) n w (by omega) hw h

theorem digitsVal_replicate_zero (k : Nat) (ds : GoStr) :
    digitsVal (List.replicate k 48 ++ ds) = digitsVal ds := by
  induction k with
  | zero => simp
  | succ k ih =>
      rw [List.replicate_succ, List.cons_append]
      unfold digitsVal at ih ⊢
      rw [List.foldl_cons]
      simpa using ih

theorem digitsVal_padZ (w : Nat) (ds : List Nat) : digitsVal (padZ w ds) = digitsVal ds := by
  unfold padZ
  exact digitsVal_replicate_zero _ _

theorem padZ_all_digits (w : Nat) (ds : List Nat) (h : ∀ b ∈ ds, isDigitB b = true) :
    ∀ b ∈ padZ w ds, isDigitB b = true := by
  intro b hb
  unfold padZ at hb
  rcases List.mem_append.mp hb with h1 | h2
  · rw [List.eq_of_mem_replicate h1]
    rfl
  · exact h b h2

theorem padZ_length (w : Nat) (ds : List Nat) (h : ds.length ≤ w) :
    (padZ w ds).length = w := by
  unfold padZ
  simp only [List.length_append, List.length_replicate]
  omega

theorem fmtPad_spec (w : Nat) (n : Int) (h0 : 0 ≤ n) (hw : 1 ≤ w)
    (h : n < ((10 ^ w : Nat) : Int)) :
    (∀ b ∈ fmtPad w n, isDigitB b = true) ∧ (fmtPad w n).length = w
      ∧ digitsVal (fmtPad w n) = n := by
  unfold fmtPad
  rw [if_neg (by omega)]
  have hn : n.toNat < 10 ^ w := by omega
  refine ⟨padZ_all_digits _ _ (natToDigits_all_digits _),
    padZ_length _ _ (natToDigits_length_le _ w hw hn), ?_⟩
  rw [digitsVal_padZ, digitsVal_natToDigits]
  omega

theorem natToDigitsF_small : ∀ (fuel n : Nat), n < fuel → n < 10 →
    natToDigitsF fuel n = [48 + n] := by
  intro fuel
  cases fuel with
  | zero => intro n h; exact absurd h (by omega)
  | succ fuel => intro n _ h10; rw [natToDigitsF, if_pos h10]

theorem natToDigits_eq_two (n : Nat) (h1 : 10 ≤ n) (h2 : n < 100) :
    natToDigits n = [48 + n / 10, 48 + n % 10] := by
  unfold natToDigits
  rw [natToDigitsF, if_neg (by omega)]
  rw [natToDigitsF_small n (n / 10) (by omega) (by omega)]
  rfl

/-- Go `%02d` on an in-range argument: the two-digit zero-padded decimal
rendering. -/
theorem fmtPad_two (n : Int) (h0 : 0 ≤ n) (h : n < 100) :
    fmtPad 2 n = [48 + n.toNat / 10, 48 + n.toNat % 10] := by
  unfold fmtPad
  rw [if_neg (by omega)]
  by_cases h10 : n.toNat < 10
  · rw [show natToDigits n.toNat = [48 + n.toNat] from by
      unfold natToDigits
      exact natToDigitsF_small _ _ (by omega) h10]
    show [48, 48 + n.toNat] = _
    have e1 : 48 + n.toNat / 10 = 48 := by omega
    have e2 : 48 + n.toNat % 10 = 48 + n.toNat := by omega
    rw [e1, e2]
  · rw [natToDigits_eq_two n.toNat (by omega) (by omega)]
    rfl

theorem list_len2 {α : Type} (l : List α) (h : l.length = 2) : ∃ a b, l = [a, b] := by
  rcases l with _ | ⟨a, _ | ⟨b, _ | ⟨c, tl⟩⟩⟩
  · exact absurd h (by simp)
  · exact absurd h (by simp)
  · exact ⟨a, b, rfl⟩
  · exact absurd h (by simp)

theorem list_len4 {α : Type} (l : List α) (h : l.length = 4) :
    ∃ a b c d, l = [a, b, c, d] := by
  rcases l with _ | ⟨a, _ | ⟨b, _ | ⟨c, _ | ⟨d, _ | ⟨e, tl⟩⟩⟩⟩⟩
  · exact absurd h (by simp)
  · exact absurd h (by simp)
  · exact absurd h (by simp)
  · exact absurd h (by simp)
  · exact ⟨a, b, c, d, rfl⟩
  · exact absurd h (by simp)

theorem takeDigitsAll_all (l : GoStr) (h : ∀ b ∈ l, isDigitB b = true) :
    takeDigitsAll l = (l, []) := by
  induction l with
  | nil => rfl
  | cons b bs ih =>
      have hb := h b (by simp)
      have hrest := ih (fun x hx => h x (by simp [hx]))
      simp [takeDigitsAll, hb, hrest]

theorem parseFrac_dot_digits (l : GoStr) (hne : l ≠ []) (hd : ∀ b ∈ l, isDigitB b = true)
    (hlen : l.length ≤ 9) :
    parseFrac (46 :: l) = (digitsVal l * 10 ^ (9 - l.length), []) := by
  cases l with
  | nil => exact absurd rfl hne
  | cons c cs =>
      have hc := hd c (by simp)
      have htake := takeDigitsAll_all (c :: cs) hd
      have htk : (c :: cs).take 9 = c :: cs := List.take_of_length_le hlen
      simp [parseFrac, hc, htake, htk]

/-! ### Validity characterizations and decomposition recovery -/

theorem DateOf_goDate (y m d : Int) (hm1 : 1 ≤ m) (hm2 : m ≤ 12) (hd1 : 1 ≤ d)
    (hd2 : d ≤ daysInMonth y m) : DateOf (goDate y m d 0 0 0 0) = ⟨y, m, d⟩ := by
  have hrec := (goDate_recover y m d 0 0 0 0 hm1 hm2 hd1 hd2 (by norm_num) (by norm_num)
    (by norm_num) (by norm_num) (by norm_num) (by norm_num) (by norm_num) (by norm_num)).1
  unfold DateOf
  simp only [hrec]

theorem TimeOf_goDate (y m d hh mi ss ns : Int)
    (hm1 : 1 ≤ m) (hm2 : m ≤ 12) (hd1 : 1 ≤ d) (hd2 : d ≤ daysInMonth y m)
    (hh1 : 0 ≤ hh) (hh2 : hh < 24) (hmi1 : 0 ≤ mi) (hmi2 : mi < 60)
    (hs1 : 0 ≤ ss) (hs2 : ss < 60) (hn1 : 0 ≤ ns) (hn2 : ns < 1000000000) :
    TimeOf (goDate y m d hh mi ss ns) = ⟨hh, mi, ss, ns⟩ := by
  obtain ⟨-, hck, hns⟩ := goDate_recover y m d hh mi ss ns hm1 hm2 hd1 hd2
    hh1 hh2 hmi1 hmi2 hs1 hs2 hn1 hn2
  unfold TimeOf
  simp only [hck, hns]

theorem dateIsValid_iff (d : Date) :
    d.IsValid = true ↔ (1 ≤ d.Month ∧ d.Month ≤ 12 ∧ 1 ≤ d.Day
      ∧ d.Day ≤ daysInMonth d.Year d.Month) := by
  unfold Date.IsValid
  rw [beq_iff_eq]
  constructor
  · intro h
    obtain ⟨hz, hm1, hm2, hd1, hd2⟩ := daysToCivil_spec (goUnix d.In / 86400)
    have hY := congrArg Date.Year h
    have hM := congrArg Date.Month h
    have hD := congrArg Date.Day h
    simp only [DateOf, goDateParts] at hY hM hD
    rw [hM] at hm1 hm2 hd2
    rw [hY] at hd2
    rw [hD] at hd1 hd2
    exact ⟨hm1, hm2, hd1, hd2⟩
  · intro h
    obtain ⟨hm1, hm2, hd1, hd2⟩ := h
    show DateOf (goDate d.Year d.Month d.Day 0 0 0 0) = d
    rw [DateOf_goDate d.Year d.Month d.Day hm1 hm2 hd1 hd2]

theorem timeIsValid_iff (t : Time) :
    t.IsValid = true ↔ (0 ≤ t.Hour ∧ t.Hour < 24 ∧ 0 ≤ t.Minute ∧ t.Minute < 60
      ∧ 0 ≤ t.Second ∧ t.Second < 60 ∧ 0 ≤ t.Nanosecond ∧ t.Nanosecond < 1000000000) := by
  unfold Time.IsValid
  rw [beq_iff_eq]
  constructor
  · intro h
    have hH := congrArg Time.Hour h
    have hMi := congrArg Time.Minute h
    have hS := congrArg Time.Second h
    have hN := congrArg Time.Nanosecond h
    simp only [TimeOf, goClock, goNanosecond, goUnix] at hH hMi hS hN
    omega
  · intro h
    rw [TimeOf_goDate 2 2 2 t.Hour t.Minute t.Second t.Nanosecond (by norm_num)
      (by norm_num) (by norm_num) (by decide) h.1 h.2.1 h.2.2.1 h.2.2.2.1 h.2.2.2.2.1
      h.2.2.2.2.2.1 h.2.2.2.2.2.2.1 h.2.2.2.2.2.2.2]

theorem DateTimeOf_In (dt : DateTime) (h : dt.IsValid = true) : DateTimeOf dt.In = dt := by
  unfold DateTime.IsValid at h
  rw [Bool.and_eq_true] at h
  obtain ⟨hdv, htv⟩ := h
  rw [dateIsValid_iff] at hdv
  rw [timeIsValid_iff] at htv
  obtain ⟨hdp, hck, hns⟩ := goDate_recover dt.Date.Year dt.Date.Month dt.Date.Day
    dt.Time.Hour dt.Time.Minute dt.Time.Second dt.Time.Nanosecond
    hdv.1 hdv.2.1 hdv.2.2.1 hdv.2.2.2 htv.1 htv.2.1 htv.2.2.1 htv.2.2.2.1
    htv.2.2.2.2.1 htv.2.2.2.2.2.1 htv.2.2.2.2.2.2.1 htv.2.2.2.2.2.2.2
  show DateTimeOf (goDate dt.Date.Year dt.Date.Month dt.Date.Day dt.Time.Hour
    dt.Time.Minute dt.Time.Second dt.Time.Nanosecond) = dt
  unfold DateTimeOf DateOf TimeOf
  simp only [hdp, hck, hns]

/-! ### Format/parse round trips -/

theorem digitsVal_two (f g : Nat) : digitsVal [f, g] = 10 * digVal f + digVal g := by
  simp only [digitsVal, digVal, List.foldl_cons, List.foldl_nil, Int.ofNat_eq_natCast]
  ring

theorem digitsVal_four (a b c e : Nat) :
    digitsVal [a, b, c, e] = 1000 * digVal a + 100 * digVal b + 10 * digVal c + digVal e := by
  simp only [digitsVal, digVal, List.foldl_cons, List.foldl_nil, Int.ofNat_eq_natCast]
  ring

theorem ParseDate_String (d : Date) (hv : d.IsValid = true) (h0 : 0 ≤ d.Year)
    (h1 : d.Year ≤ 9999) : ParseDate d.String = (d, none) := by
  have hvr := (dateIsValid_iff d).mp hv
  obtain ⟨hm1, hm2, hd1, hd2⟩ := hvr
  have hdmb := daysInMonth_bounds d.Year d.Month
  obtain ⟨hYd, hYl, hYv⟩ := fmtPad_spec 4 d.Year h0 (by norm_num) (by norm_num; omega)
  obtain ⟨hMd, hMl, hMv⟩ := fmtPad_spec 2 d.Month (by omega) (by norm_num) (by norm_num; omega)
  obtain ⟨hDd, hDl, hDv⟩ := fmtPad_spec 2 d.Day (by omega) (by norm_num) (by norm_num; omega)
  obtain ⟨a, b, c, e, hY⟩ := list_len4 _ hYl
  obtain ⟨f, g, hM⟩ := list_len2 _ hMl
  obtain ⟨i, j, hD⟩ := list_len2 _ hDl
  have ha := hYd a (by rw [hY]; simp)
  have hb := hYd b (by rw [hY]; simp)
  have hc := hYd c (by rw [hY]; simp)
  have he := hYd e (by rw [hY]; simp)
  have hf := hMd f (by rw [hM]; simp)
  have hg := hMd g (by rw [hM]; simp)
  have hi := hDd i (by rw [hD]; simp)
  have hj := hDd j (by rw [hD]; simp)
  rw [hY, digitsVal_four] at hYv
  rw [hM, digitsVal_two] at hMv
  rw [hD, digitsVal_two] at hDv
  have hstr : d.String = a :: b :: c :: e :: 45 :: f :: g :: 45 :: i :: j :: [] := by
    unfold Date.String
    rw [hY, hM, hD]
    simp
  have e1 : getnum4 (a :: b :: c :: e :: 45 :: f :: g :: 45 :: i :: j :: ([] : GoStr))
      = some (1000 * digVal a + 100 * digVal b + 10 * digVal c + digVal e,
          45 :: f :: g :: 45 :: i :: j :: []) := by
    simp [getnum4, ha, hb, hc, he]
  have e2 : litB 45 (45 :: f :: g :: 45 :: i :: j :: ([] : GoStr))
      = some (f :: g :: 45 :: i :: j :: []) := by
    simp [litB]
  have e3 : getnum2 (f :: g :: 45 :: i :: j :: ([] : GoStr))
      = some (10 * digVal f + digVal g, 45 :: i :: j :: []) := by
    simp [getnum2, hf, hg]
  have e4 : litB 45 (45 :: i :: j :: ([] : GoStr)) = some (i :: j :: []) := by
    simp [litB]
  have e5 : getnum2 (i :: j :: ([] : GoStr)) = some (10 * digVal i + digVal j, []) := by
    simp [getnum2, hi, hj]
  have hfields : parseDateFields d.String = some (d.Year, d.Month, d.Day) := by
    rw [hstr]
    simp only [parseDateFields, e1, e2, e3, e4, e5]
    rw [hYv, hMv, hDv]
    rw [if_pos ⟨by trivial, hm1, hm2, hd1, hd2⟩]
  unfold ParseDate
  simp only [hfields]
  rw [show goDate d.Year d.Month d.Day 0 0 0 0 = d.In from rfl]
  have : DateOf d.In = d := by
    have := hv
    unfold Date.IsValid at this
    exact beq_iff_eq.mp this
  rw [this]

theorem ParseTime_String (t : Time) (hv : t.IsValid = true) : ParseTime t.String = (t, none) := by
  obtain ⟨hh1, hh2, hm1, hm2, hs1, hs2, hn1, hn2⟩ := (timeIsValid_iff t).mp hv
  obtain ⟨hHd, hHl, hHv⟩ := fmtPad_spec 2 t.Hour hh1 (by norm_num) (by norm_num; omega)
  obtain ⟨hMd, hMl, hMv⟩ := fmtPad_spec 2 t.Minute hm1 (by norm_num) (by norm_num; omega)
  obtain ⟨hSd, hSl, hSv⟩ := fmtPad_spec 2 t.Second hs1 (by norm_num) (by norm_num; omega)
  obtain ⟨a, b, hH⟩ := list_len2 _ hHl
  obtain ⟨c, e, hM⟩ := list_len2 _ hMl
  obtain ⟨f, g, hS⟩ := list_len2 _ hSl
  have ha := hHd a (by rw [hH]; simp)
  have hb := hHd b (by rw [hH]; simp)
  have hc := hMd c (by rw [hM]; simp)
  have he := hMd e (by rw [hM]; simp)
  have hf := hSd f (by rw [hS]; simp)
  have hg := hSd g (by rw [hS]; simp)
  rw [hH, digitsVal_two] at hHv
  rw [hM, digitsVal_two] at hMv
  rw [hS, digitsVal_two] at hSv
  by_cases hns : t.Nanosecond = 0
  · have hstr : t.String = a :: b :: 58 :: c :: e :: 58 :: f :: g :: [] := by
      unfold Time.String
      rw [hH, hM, hS, hns]
      simp
    have e1 : getnum12 (a :: b :: 58 :: c :: e :: 58 :: f :: g :: ([] : GoStr))
        = some (10 * digVal a + digVal b, 58 :: c :: e :: 58 :: f :: g :: []) := by
      simp [getnum12, ha, hb]
    have e2 : litB 58 (58 :: c :: e :: 58 :: f :: g :: ([] : GoStr))
        = some (c :: e :: 58 :: f :: g :: []) := by
      simp [litB]
    have e3 : getnum2 (c :: e :: 58 :: f :: g :: ([] : GoStr))
        = some (10 * digVal c + digVal e, 58 :: f :: g :: []) := by
      simp [getnum2, hc, he]
    have e4 : litB 58 (58 :: f :: g :: ([] : GoStr)) = some (f :: g :: []) := by
      simp [litB]
    have e5 : getnum2 (f :: g :: ([] : GoStr)) = some (10 * digVal f + digVal g, []) := by
      simp [getnum2, hf, hg]
    have hfields : parseTimeFields t.String
        = some (t.Hour, t.Minute, t.Second, t.Nanosecond) := by
      rw [hstr]
      simp only [parseTimeFields, e1, e2, e3, e4, e5]
      rw [hHv, hMv, hSv]
      rw [if_pos ⟨by trivial, hh1, hh2, hm1, hm2, hs1, hs2⟩]
      rw [hns]
      rfl
    unfold ParseTime
    simp only [hfields]
    rw [TimeOf_goDate 0 1 1 t.Hour t.Minute t.Second t.Nanosecond (by norm_num) (by norm_num)
      (by norm_num) (by decide) hh1 hh2 hm1 hm2 hs1 hs2 hn1 hn2]
  · obtain ⟨hNd, hNl, hNv⟩ := fmtPad_spec 9 t.Nanosecond hn1 (by norm_num) (by norm_num; omega)
    have hstr : t.String = a :: b :: 58 :: c :: e :: 58 :: f :: g :: 46 :: fmtPad 9 t.Nanosecond := by
      unfold Time.String
      rw [hH, hM, hS]
      rw [if_neg (by simpa using hns)]
      simp
    have hpf : parseFrac (46 :: fmtPad 9 t.Nanosecond) = (t.Nanosecond, []) := by
      rw [parseFrac_dot_digits _ (by intro hx; rw [hx] at hNl; simp at hNl) hNd (by rw [hNl])]
      rw [hNl, hNv]
      norm_num
    have e1 : getnum12 (a :: b :: 58 :: c :: e :: 58 :: f :: g :: 46 :: fmtPad 9 t.Nanosecond)
        = some (10 * digVal a + digVal b, 58 :: c :: e :: 58 :: f :: g :: 46 :: fmtPad 9 t.Nanosecond) := by
      simp [getnum12, ha, hb]
    have e2 : litB 58 (58 :: c :: e :: 58 :: f :: g :: 46 :: fmtPad 9 t.Nanosecond)
        = some (c :: e :: 58 :: f :: g :: 46 :: fmtPad 9 t.Nanosecond) := by
      simp [litB]
    have e3 : getnum2 (c :: e :: 58 :: f :: g :: 46 :: fmtPad 9 t.Nanosecond)
        = some (10 * digVal c + digVal e, 58 :: f :: g :: 46 :: fmtPad 9 t.Nanosecond) := by
      simp [getnum2, hc, he]
    have e4 : litB 58 (58 :: f :: g :: 46 :: fmtPad 9 t.Nanosecond)
        = some (f :: g :: 46 :: fmtPad 9 t.Nanosecond) := by
      simp [litB]
    have e5 : getnum2 (f :: g :: 46 :: fmtPad 9 t.Nanosecond)
        = some (10 * digVal f + digVal g, 46 :: fmtPad 9 t.Nanosecond) := by
      simp [getnum2, hf, hg]
    have hfields : parseTimeFields t.String
        = some (t.Hour, t.Minute, t.Second, t.Nanosecond) := by
      rw [hstr]
      simp only [parseTimeFields, e1, e2, e3, e4, e5]
      rw [hHv, hMv, hSv, hpf]
      rw [if_pos ⟨by trivial, hh1, hh2, hm1, hm2, hs1, hs2⟩]
    unfold ParseTime
    simp only [hfields]
    rw [TimeOf_goDate 0 1 1 t.Hour t.Minute t.Second t.Nanosecond (by norm_num) (by norm_num)
      (by norm_num) (by decide) hh1 hh2 hm1 hm2 hs1 hs2 hn1 hn2]

theorem ParseDateTime_String (dt : DateTime) (hv : dt.IsValid = true) (h0 : 0 ≤ dt.Date.Year)
    (h1 : dt.Date.Year ≤ 9999) : ParseDateTime dt.String = (dt, none) := by
  have hvb := hv
  unfold DateTime.IsValid at hvb
  rw [Bool.and_eq_true] at hvb
  obtain ⟨hdv, htv⟩ := hvb
  obtain ⟨hm1, hm2, hd1, hd2⟩ := (dateIsValid_iff dt.Date).mp hdv
  obtain ⟨hh1, hh2, hmi1, hmi2, hs1, hs2, hn1, hn2⟩ := (timeIsValid_iff dt.Time).mp htv
  have hdmb := daysInMonth_bounds dt.Date.Year dt.Date.Month
  obtain ⟨hYd, hYl, hYv⟩ := fmtPad_spec 4 dt.Date.Year h0 (by norm_num) (by norm_num; omega)
  obtain ⟨hMd, hMl, hMv⟩ := fmtPad_spec 2 dt.Date.Month (by omega) (by norm_num)
    (by norm_num; omega)
  obtain ⟨hDd, hDl, hDv⟩ := fmtPad_spec 2 dt.Date.Day (by omega) (by norm_num)
    (by norm_num; omega)
  obtain ⟨hHd, hHl, hHv⟩ := fmtPad_spec 2 dt.Time.Hour hh1 (by norm_num) (by norm_num; omega)
  obtain ⟨hMid, hMil, hMiv⟩ := fmtPad_spec 2 dt.Time.Minute hmi1 (by norm_num)
    (by norm_num; omega)
  obtain ⟨hSd, hSl, hSv⟩ := fmtPad_spec 2 dt.Time.Second hs1 (by norm_num) (by norm_num; omega)
  obtain ⟨a, b, c, e, hY⟩ := list_len4 _ hYl
  obtain ⟨f, g, hM⟩ := list_len2 _ hMl
  obtain ⟨i, j, hD⟩ := list_len2 _ hDl
  obtain ⟨k1, k2, hH⟩ := list_len2 _ hHl
  obtain ⟨n1, n2, hMi⟩ := list_len2 _ hMil
  obtain ⟨p1, p2, hS⟩ := list_len2 _ hSl
  have ha := hYd a (by rw [hY]; simp)
  have hb := hYd b (by rw [hY]; simp)
  have hc := hYd c (by rw [hY]; simp)
  have he := hYd e (by rw [hY]; simp)
  have hf := hMd f (by rw [hM]; simp)
  have hg := hMd g (by rw [hM]; simp)
  have hi := hDd i (by rw [hD]; simp)
  have hj := hDd j (by rw [hD]; simp)
  have hk1 := hHd k1 (by rw [hH]; simp)
  have hk2 := hHd k2 (by rw [hH]; simp)
  have hn1d := hMid n1 (by rw [hMi]; simp)
  have hn2d := hMid n2 (by rw [hMi]; simp)
  have hp1 := hSd p1 (by rw [hS]; simp)
  have hp2 := hSd p2 (by rw [hS]; simp)
  rw [hY, digitsVal_four] at hYv
  rw [hM, digitsVal_two] at hMv
  rw [hD, digitsVal_two] at hDv
  rw [hH, digitsVal_two] at hHv
  rw [hMi, digitsVal_two] at hMiv
  rw [hS, digitsVal_two] at hSv
  obtain ⟨rest, hrest, hpf⟩ : ∃ rest,
      (if (dt.Time.Nanosecond == 0 : Bool) then ([] : GoStr)
        else 46 :: fmtPad 9 dt.Time.Nanosecond) = rest
        ∧ parseFrac rest = (dt.Time.Nanosecond, []) := by
    by_cases hns : dt.Time.Nanosecond = 0
    · refine ⟨[], by simp [hns], ?_⟩
      rw [hns]
      rfl
    · obtain ⟨hNd, hNl, hNv⟩ := fmtPad_spec 9 dt.Time.Nanosecond hn1 (by norm_num)
        (by norm_num; omega)
      refine ⟨46 :: fmtPad 9 dt.Time.Nanosecond, by simp [hns], ?_⟩
      rw [parseFrac_dot_digits _ (by intro hx; rw [hx] at hNl; simp at hNl) hNd (by rw [hNl])]
      rw [hNl, hNv]
      norm_num
  have hstr : dt.String = a :: b :: c :: e :: 45 :: f :: g :: 45 :: i :: j :: 84 ::
      k1 :: k2 :: 58 :: n1 :: n2 :: 58 :: p1 :: p2 :: rest := by
    unfold DateTime.String Date.String Time.String
    rw [hY, hM, hD, hH, hMi, hS, hrest]
    simp
  have e1 : getnum4 (a :: b :: c :: e :: 45 :: f :: g :: 45 :: i :: j :: 84 ::
      k1 :: k2 :: 58 :: n1 :: n2 :: 58 :: p1 :: p2 :: rest)
      = some (1000 * digVal a + 100 * digVal b + 10 * digVal c + digVal e,
          45 :: f :: g :: 45 :: i :: j :: 84 :: k1 :: k2 :: 58 :: n1 :: n2 :: 58 ::
            p1 :: p2 :: rest) := by
    simp [getnum4, ha, hb, hc, he]
  have e2 : litB 45 (45 :: f :: g :: 45 :: i :: j :: 84 :: k1 :: k2 :: 58 :: n1 :: n2 ::
      58 :: p1 :: p2 :: rest)
      = some (f :: g :: 45 :: i :: j :: 84 :: k1 :: k2 :: 58 :: n1 :: n2 :: 58 ::
          p1 :: p2 :: rest) := by
    simp [litB]
  have e3 : getnum2 (f :: g :: 45 :: i :: j :: 84 :: k1 :: k2 :: 58 :: n1 :: n2 :: 58 ::
      p1 :: p2 :: rest)
      = some (10 * digVal f + digVal g,
          45 :: i :: j :: 84 :: k1 :: k2 :: 58 :: n1 :: n2 :: 58 :: p1 :: p2 :: rest) := by
    simp [getnum2, hf, hg]
  have e4 : litB 45 (45 :: i :: j :: 84 :: k1 :: k2 :: 58 :: n1 :: n2 :: 58 ::
      p1 :: p2 :: rest)
      = some (i :: j :: 84 :: k1 :: k2 :: 58 :: n1 :: n2 :: 58 :: p1 :: p2 :: rest) := by
    simp [litB]
  have e5 : getnum2 (i :: j :: 84 :: k1 :: k2 :: 58 :: n1 :: n2 :: 58 :: p1 :: p2 :: rest)
      = some (10 * digVal i + digVal j,
          84 :: k1 :: k2 :: 58 :: n1 :: n2 :: 58 :: p1 :: p2 :: rest) := by
    simp [getnum2, hi, hj]
  have e6 : litB 84 (84 :: k1 :: k2 :: 58 :: n1 :: n2 :: 58 :: p1 :: p2 :: rest)
      = some (k1 :: k2 :: 58 :: n1 :: n2 :: 58 :: p1 :: p2 :: rest) := by
    simp [litB]
  have e7 : getnum12 (k1 :: k2 :: 58 :: n1 :: n2 :: 58 :: p1 :: p2 :: rest)
      = some (10 * digVal k1 + digVal k2, 58 :: n1 :: n2 :: 58 :: p1 :: p2 :: rest) := by
    simp [getnum12, hk1, hk2]
  have e8 : litB 58 (58 :: n1 :: n2 :: 58 :: p1 :: p2 :: rest)
      = some (n1 :: n2 :: 58 :: p1 :: p2 :: rest) := by
    simp [litB]
  have e9 : getnum2 (n1 :: n2 :: 58 :: p1 :: p2 :: rest)
      = some (10 * digVal n1 + digVal n2, 58 :: p1 :: p2 :: rest) := by
    simp [getnum2, hn1d, hn2d]
  have e10 : litB 58 (58 :: p1 :: p2 :: rest) = some (p1 :: p2 :: rest) := by
    simp [litB]
  have e11 : getnum2 (p1 :: p2 :: rest)
      = some (10 * digVal p1 + digVal p2, rest) := by
    simp [getnum2, hp1, hp2]
  have hfields : parseDateTimeFields 84 dt.String
      = some (dt.Date.Year, dt.Date.Month, dt.Date.Day, dt.Time.Hour, dt.Time.Minute,
          dt.Time.Second, dt.Time.Nanosecond) := by
    rw [hstr]
    simp only [parseDateTimeFields, e1, e2, e3, e4, e5, e6, e7, e8, e9, e10, e11]
    rw [hYv, hMv, hDv, hHv, hMiv, hSv, hpf]
    rw [if_pos ⟨by trivial, hm1, hm2, hd1, hd2, hh1, hh2, hmi1, hmi2, hs1, hs2⟩]
  unfold ParseDateTime
  simp only [hfields]
  rw [show goDate dt.Date.Year dt.Date.Month dt.Date.Day dt.Time.Hour dt.Time.Minute
    dt.Time.Second dt.Time.Nanosecond = dt.In from rfl]
  rw [DateTimeOf_In dt hv]

/-! ### Day arithmetic -/

theorem civilToDays_add_days (y m d n : Int) :
    civilToDays y m (d + n) = civilToDays y m d + n := by
  unfold civilToDays
  ring

theorem goClock_goDate_midnight (y m d : Int) :
    goClock (goDate y m d 0 0 0 0) = (0, 0, 0) := by
  unfold goClock
  rw [goUnix_goDate_midnight]
  have h : civilToDays y m d * 86400 % 86400 = 0 := by omega
  rw [h]
  norm_num

theorem goNanosecond_goDate_midnight (y m d : Int) :
    goNanosecond (goDate y m d 0 0 0 0) = 0 := by
  unfold goNanosecond goDate
  omega

theorem In_DateOf (x : Int) :
    (DateOf x).In = goUnix x / 86400 * 86400 * 1000000000 := by
  show goDate (daysToCivil (goUnix x / 86400)).1 (daysToCivil (goUnix x / 86400)).2.1
      (daysToCivil (goUnix x / 86400)).2.2 0 0 0 0 = _
  unfold goDate
  rw [civilToDays_daysToCivil]
  ring

theorem AddDays_DaysSince (d : Date) (n : Int) : (d.AddDays n).DaysSince d = n := by
  have hZ : goUnix d.In = civilToDays d.Year d.Month d.Day * 86400 :=
    goUnix_goDate_midnight d.Year d.Month d.Day
  have hck : goClock d.In = (0, 0, 0) := goClock_goDate_midnight d.Year d.Month d.Day
  have hns : goNanosecond d.In = 0 := goNanosecond_goDate_midnight d.Year d.Month d.Day
  have hdp : goDateParts d.In = daysToCivil (civilToDays d.Year d.Month d.Day) := by
    unfold goDateParts
    rw [hZ]
    congr 1
    omega
  have hT2 : goAddDate d.In 0 0 n
      = goDate (daysToCivil (civilToDays d.Year d.Month d.Day)).1
          (daysToCivil (civilToDays d.Year d.Month d.Day)).2.1
          ((daysToCivil (civilToDays d.Year d.Month d.Day)).2.2 + n) 0 0 0 0 := by
    unfold goAddDate
    rw [hdp, hck, hns]
    simp
  have hU2 : goUnix (goAddDate d.In 0 0 n)
      = (civilToDays d.Year d.Month d.Day + n) * 86400 := by
    rw [hT2, goUnix_goDate_midnight, civilToDays_add_days,
      (daysToCivil_spec (civilToDays d.Year d.Month d.Day)).1]
  have hIn2 : (d.AddDays n).In
      = goUnix (goAddDate d.In 0 0 n) / 86400 * 86400 * 1000000000 := In_DateOf _
  have hU3 : goUnix ((d.AddDays n).In) = (civilToDays d.Year d.Month d.Day + n) * 86400 := by
    rw [hIn2, hU2]
    unfold goUnix
    omega
  unfold Date.DaysSince
  rw [hU3, hZ]
  rw [show (civilToDays d.Year d.Month d.Day + n) * 86400
      - civilToDays d.Year d.Month d.Day * 86400 = n * 86400 by ring]
  exact Int.mul_tdiv_cancel _ (by norm_num)

/-! ### Ordering trichotomy -/

theorem dateBefore_trichotomy (a b : Date) :
    (a.Before b = true ∧ b.Before a = false ∧ a ≠ b)
      ∨ (a.Before b = false ∧ b.Before a = false ∧ a = b)
      ∨ (a.Before b = false ∧ b.Before a = true ∧ a ≠ b) := by
  obtain ⟨ay, am, ad⟩ := a
  obtain ⟨cy, cm, cd⟩ := b
  by_cases h1 : ay = cy <;> by_cases h2 : am = cm <;> by_cases h3 : ad = cd <;>
    simp [Date.Before, Date.mk.injEq, ne_eq, eq_comm, h1, h2, h3] <;> omega

theorem timeBefore_trichotomy (a b : Time) :
    (a.Before b = true ∧ b.Before a = false ∧ a ≠ b)
      ∨ (a.Before b = false ∧ b.Before a = false ∧ a = b)
      ∨ (a.Before b = false ∧ b.Before a = true ∧ a ≠ b) := by
  obtain ⟨ah, am, as, an⟩ := a
  obtain ⟨ch, cm, cs, cn⟩ := b
  by_cases h1 : ah = ch <;> by_cases h2 : am = cm <;> by_cases h3 : as = cs <;>
    by_cases h4 : an = cn <;>
    simp [Time.Before, Time.mk.injEq, ne_eq, eq_comm, h1, h2, h3, h4] <;> omega

/-! ### Inversion of the date parser and the exact success set -/

theorem getnum4_some {s : GoStr} {v : Int} {r : GoStr} (h : getnum4 s = some (v, r)) :
    ∃ a b c e, s = a :: b :: c :: e :: r ∧ isDigitB a = true ∧ isDigitB b = true
      ∧ isDigitB c = true ∧ isDigitB e = true
      ∧ v = 1000 * digVal a + 100 * digVal b + 10 * digVal c + digVal e := by
  rcases s with _ | ⟨a, _ | ⟨b, _ | ⟨c, _ | ⟨e, rest⟩⟩⟩⟩
  · simp [getnum4] at h
  · simp [getnum4] at h
  · simp [getnum4] at h
  · simp [getnum4] at h
  · rw [show getnum4 (a :: b :: c :: e :: rest)
        = if isDigitB a && isDigitB b && isDigitB c && isDigitB e then
            some (1000 * digVal a + 100 * digVal b + 10 * digVal c + digVal e, rest)
          else none from rfl] at h
    split at h
    · rename_i hd
      simp only [Option.some.injEq, Prod.mk.injEq] at h
      obtain ⟨hv, hr⟩ := h
      simp only [Bool.and_eq_true] at hd
      exact ⟨a, b, c, e, by rw [hr], hd.1.1.1, hd.1.1.2, hd.1.2, hd.2, hv.symm⟩
    · exact absurd h (by simp)

theorem getnum2_some {s : GoStr} {v : Int} {r : GoStr} (h : getnum2 s = some (v, r)) :
    ∃ a b, s = a :: b :: r ∧ isDigitB a = true ∧ isDigitB b = true
      ∧ v = 10 * digVal a + digVal b := by
  rcases s with _ | ⟨a, _ | ⟨b, rest⟩⟩
  · simp [getnum2] at h
  · simp [getnum2] at h
  · rw [show getnum2 (a :: b :: rest)
        = if isDigitB a && isDigitB b then some (10 * digVal a + digVal b, rest)
          else none from rfl] at h
    split at h
    · rename_i hd
      simp only [Option.some.injEq, Prod.mk.injEq] at h
      obtain ⟨hv, hr⟩ := h
      simp only [Bool.and_eq_true] at hd
      exact ⟨a, b, by rw [hr], hd.1, hd.2, hv.symm⟩
    · exact absurd h (by simp)

theorem litB_some {c : Nat} {s : GoStr} {r : GoStr} (h : litB c s = some r) :
    s = c :: r := by
  rcases s with _ | ⟨b, rest⟩
  · simp [litB] at h
  · rw [show litB c (b :: rest) = if b = c then some rest else none from rfl] at h
    split at h
    · rename_i hb
      simp only [Option.some.injEq] at h
      rw [hb, h]
    · exact absurd h (by simp)

/-- Modelled from the claim's wording: a string of the exact fixed-width
shape YYYY-MM-DD (four digits, hyphen, two digits, hyphen, two digits). -/
def dateShape (s : GoStr) : Bool :=
  match s with
  | [a, b, c, e, s1, f, g, s2, i, j] =>
      isDigitB a && isDigitB b && isDigitB c && isDigitB e && (s1 == 45) && isDigitB f
        && isDigitB g && (s2 == 45) && isDigitB i && isDigitB j
  | _ => false

/-- The shape together with the calendar range checks Go's parser applies:
month 01..12 and day at most the month's length. -/
def dateParseOK (s : GoStr) : Bool :=
  match s with
  | [a, b, c, e, _s1, f, g, _s2, i, j] =>
      dateShape [a, b, c, e, _s1, f, g, _s2, i, j]
        && decide (1 ≤ 10 * digVal f + digVal g) && decide (10 * digVal f + digVal g ≤ 12)
        && decide (1 ≤ 10 * digVal i + digVal j)
        && decide (10 * digVal i + digVal j
             ≤ daysInMonth (1000 * digVal a + 100 * digVal b + 10 * digVal c + digVal e)
                 (10 * digVal f + digVal g))
  | _ => false

theorem parseDateFields_shape (a b c e f g i j : Nat)
    (ha : isDigitB a = true) (hb : isDigitB b = true) (hc : isDigitB c = true)
    (he : isDigitB e = true) (hf : isDigitB f = true) (hg : isDigitB g = true)
    (hi : isDigitB i = true) (hj : isDigitB j = true) :
    parseDateFields [a, b, c, e, 45, f, g, 45, i, j]
      = if 1 ≤ 10 * digVal f + digVal g ∧ 10 * digVal f + digVal g ≤ 12
            ∧ 1 ≤ 10 * digVal i + digVal j
            ∧ 10 * digVal i + digVal j
                ≤ daysInMonth (1000 * digVal a + 100 * digVal b + 10 * digVal c + digVal e)
                    (10 * digVal f + digVal g)
          then some (1000 * digVal a + 100 * digVal b + 10 * digVal c + digVal e,
              10 * digVal f + digVal g, 10 * digVal i + digVal j)
          else none := by
  have e1 : getnum4 (a :: b :: c :: e :: 45 :: f :: g :: 45 :: i :: j :: ([] : GoStr))
      = some (1000 * digVal a + 100 * digVal b + 10 * digVal c + digVal e,
          45 :: f :: g :: 45 :: i :: j :: []) := by
    simp [getnum4, ha, hb, hc, he]
  have e2 : litB 45 (45 :: f :: g :: 45 :: i :: j :: ([] : GoStr))
      = some (f :: g :: 45 :: i :: j :: []) := by
    simp [litB]
  have e3 : getnum2 (f :: g :: 45 :: i :: j :: ([] : GoStr))
      = some (10 * digVal f + digVal g, 45 :: i :: j :: []) := by
    simp [getnum2, hf, hg]
  have e4 : litB 45 (45 :: i :: j :: ([] : GoStr)) = some (i :: j :: []) := by
    simp [litB]
  have e5 : getnum2 (i :: j :: ([] : GoStr)) = some (10 * digVal i + digVal j, []) := by
    simp [getnum2, hi, hj]
  simp only [parseDateFields, e1, e2, e3, e4, e5]
  simp

theorem ParseDate_success_iff (s : GoStr) :
    (ParseDate s).2 = none ↔ dateParseOK s = true := by
  constructor
  · intro h
    obtain ⟨y, mo, dd, hf⟩ : ∃ y mo dd, parseDateFields s = some (y, mo, dd) := by
      cases hp : parseDateFields s with
      | none => rw [ParseDate, hp] at h; simp at h
      | some p =>
          obtain ⟨y, mo, dd⟩ := p
          exact ⟨y, mo, dd, rfl⟩
    unfold parseDateFields at hf
    cases h4 : getnum4 s with
    | none => simp only [h4] at hf; exact Option.noConfusion hf
    | some p1 =>
      obtain ⟨v1, r1⟩ := p1
      simp only [h4] at hf
      cases hl1 : litB 45 r1 with
      | none => simp only [hl1] at hf; exact Option.noConfusion hf
      | some r2 =>
        simp only [hl1] at hf
        cases h2 : getnum2 r2 with
        | none => simp only [h2] at hf; exact Option.noConfusion hf
        | some p2 =>
          obtain ⟨v2, r3⟩ := p2
          simp only [h2] at hf
          cases hl2 : litB 45 r3 with
          | none => simp only [hl2] at hf; exact Option.noConfusion hf
          | some r4 =>
            simp only [hl2] at hf
            cases h3 : getnum2 r4 with
            | none => simp only [h3] at hf; exact Option.noConfusion hf
            | some p3 =>
              obtain ⟨v3, r5⟩ := p3
              simp only [h3] at hf
              split at hf
              · rename_i hcond
                obtain ⟨hr5, hrange⟩ := hcond
                subst hr5
                obtain ⟨a, b, c, e, hs1, ha, hb, hc, he, hv1⟩ := getnum4_some h4
                have hr1 := litB_some hl1
                obtain ⟨f, g, hs2, hfd, hgd, hv2⟩ := getnum2_some h2
                have hr3 := litB_some hl2
                obtain ⟨i, j, hs3, hid, hjd, hv3⟩ := getnum2_some h3
                subst hr1 hs2 hr3 hs3
                rw [hs1]
                simp only [dateParseOK, dateShape, ha, hb, hc, he, hfd, hgd, hid, hjd]
                rw [← hv1, ← hv2, ← hv3]
                simp only [Bool.and_eq_true, decide_eq_true_eq, beq_self_eq_true]
                exact ⟨⟨⟨⟨by simp, hrange.1⟩, hrange.2.1⟩, hrange.2.2.1⟩, hrange.2.2.2⟩
              · exact absurd hf (by simp)
  · intro h
    unfold dateParseOK at h
    split at h
    · rename_i a b c e s1 f g s2 i j
      rw [Bool.and_eq_true, Bool.and_eq_true, Bool.and_eq_true, Bool.and_eq_true] at h
      obtain ⟨⟨⟨⟨hsh, hmo1⟩, hmo2⟩, hdd1⟩, hdd2⟩ := h
      simp only [dateShape, Bool.and_eq_true, beq_iff_eq] at hsh
      obtain ⟨⟨⟨⟨⟨⟨⟨⟨⟨ha, hb⟩, hc⟩, he⟩, hs1⟩, hf⟩, hg⟩, hs2⟩, hi⟩, hj⟩ := hsh
      rw [decide_eq_true_eq] at hmo1 hmo2 hdd1 hdd2
      subst hs1 hs2
      rw [ParseDate]
      rw [parseDateFields_shape a b c e f g i j ha hb hc he hf hg hi hj]
      rw [if_pos ⟨hmo1, hmo2, hdd1, hdd2⟩]
    · exact absurd h (by simp)

/-! ### Failure shapes of the parse functions -/

theorem ParseDate_fail (s : GoStr) (h : (ParseDate s).2.isSome = true) :
    ParseDate s = (⟨0, 0, 0⟩, some (GoError.parseErr dateLayout s)) := by
  cases hp : parseDateFields s with
  | none => simp only [ParseDate, hp]
  | some p =>
      obtain ⟨y, mo, dd⟩ := p
      simp only [ParseDate, hp] at h
      simp at h

theorem ParseTime_fail (s : GoStr) (h : (ParseTime s).2.isSome = true) :
    ParseTime s = (⟨0, 0, 0, 0⟩, some (GoError.parseErr timeLayout s)) := by
  cases hp : parseTimeFields s with
  | none => simp only [ParseTime, hp]
  | some p =>
      obtain ⟨hh, mi, ss, ns⟩ := p
      simp only [ParseTime, hp] at h
      simp at h

theorem ParseDateTime_fail (s : GoStr) (h : (ParseDateTime s).2.isSome = true) :
    ParseDateTime s = (⟨⟨0, 0, 0⟩, ⟨0, 0, 0, 0⟩⟩,
      some (GoError.parseErr dateTimeLayoutLower s)) := by
  cases hp : parseDateTimeFields 84 s with
  | some p =>
      obtain ⟨y, mo, dd, hh, mi, ss, ns⟩ := p
      simp only [ParseDateTime, hp] at h
      simp at h
  | none =>
      cases hq : parseDateTimeFields 116 s with
      | some p =>
          obtain ⟨y, mo, dd, hh, mi, ss, ns⟩ := p
          simp only [ParseDateTime, hp, hq] at h
          simp at h
      | none => simp only [ParseDateTime, hp, hq]


/-! ### The claims -/

/-- C1, counterexample: the claim fails as stated.  Date{10000, 1, 1} is a
valid Date, but formatting it gives the eleven-byte text "10000-01-01",
which ParseDate rejects (the year element reads exactly four digits), so
parse-after-format does not return the original value. -/
theorem c1_roundtrip_counterexample :
    Date.IsValid ⟨10000, 1, 1⟩ = true
      ∧ ParseDate (Date.String ⟨10000, 1, 1⟩)
          = (⟨0, 0, 0⟩, some (GoError.parseErr dateLayout (Date.String ⟨10000, 1, 1⟩))) :=
  ⟨by decide, by decide⟩

/-- C1 (amended): for every valid Date whose year fits the four-digit form
(0 ≤ year ≤ 9999), every valid Time, and every valid DateTime whose year
fits the four-digit form, parsing the text produced by formatting the value
succeeds and returns a structurally equal value. -/
theorem c1_roundtrip_amended :
    (∀ d : Date, d.IsValid = true → 0 ≤ d.Year → d.Year ≤ 9999 →
        ParseDate d.String = (d, none))
      ∧ (∀ t : Time, t.IsValid = true → ParseTime t.String = (t, none))
      ∧ (∀ dt : DateTime, dt.IsValid = true → 0 ≤ dt.Date.Year → dt.Date.Year ≤ 9999 →
          ParseDateTime dt.String = (dt, none)) :=
  ⟨ParseDate_String, ParseTime_String, ParseDateTime_String⟩

/-- C1, witness: the amended round trip at 2014-08-20, 15:04:05.999000000
and 2014-08-20T15:04:05. -/
theorem c1_roundtrip_witness :
    ParseDate (Date.String ⟨2014, 8, 20⟩) = (⟨2014, 8, 20⟩, none)
      ∧ ParseTime (Time.String ⟨15, 4, 5, 999000000⟩) = (⟨15, 4, 5, 999000000⟩, none)
      ∧ ParseDateTime (DateTime.String ⟨⟨2014, 8, 20⟩, ⟨15, 4, 5, 0⟩⟩)
          = (⟨⟨2014, 8, 20⟩, ⟨15, 4, 5, 0⟩⟩, none) :=
  ⟨c1_roundtrip_amended.1 ⟨2014, 8, 20⟩ (by decide) (by decide) (by decide),
   c1_roundtrip_amended.2.1 ⟨15, 4, 5, 999000000⟩ (by decide),
   c1_roundtrip_amended.2.2 ⟨⟨2014, 8, 20⟩, ⟨15, 4, 5, 0⟩⟩ (by decide) (by decide) (by decide)⟩

/-- C3: for every valid Date `d` and every integer `n`,
`DaysSince (AddDays d n) d = n` — DaysSince inverts AddDays.  (The law in
fact holds for every Date; the validity hypothesis mirrors the claim.) -/
theorem c3_adddays_dayssince (d : Date) (n : Int) (_hv : d.IsValid = true) :
    (d.AddDays n).DaysSince d = n := AddDays_DaysSince d n

/-- C3, witness: 2014-08-20 shifted by 37 days. -/
theorem c3_adddays_dayssince_witness :
    Date.IsValid ⟨2014, 8, 20⟩ = true
      ∧ (Date.AddDays ⟨2014, 8, 20⟩ 37).DaysSince ⟨2014, 8, 20⟩ = 37 :=
  ⟨by decide, c3_adddays_dayssince ⟨2014, 8, 20⟩ 37 (by decide)⟩

/-- C5: IsValid is exactly the recompose-at-UTC-midnight-then-decompose
round trip, and in particular February 30, 2023 is invalid. -/
theorem c5_isvalid_roundtrip :
    (∀ d : Date, d.IsValid = true ↔ DateOf d.In = d)
      ∧ Date.IsValid ⟨2023, 2, 30⟩ = false := by
  constructor
  · intro d
    unfold Date.IsValid
    exact beq_iff_eq
  · decide

/-- C7: null/absent handling of the scan adapters — Date.Scan of nil
resets the target to the structural zero, while Time.Scan and
DateTime.Scan of a nil `*time.Time`, `*string` or `*[]byte` succeed and
leave the target unchanged. -/
theorem c7_scan_null_policy :
    (∀ d : Date, Date.Scan d ScanValue.vNil = (⟨0, 0, 0⟩, none))
      ∧ (∀ t : Time, Time.Scan t (ScanValue.vPtrTime none) = (t, none)
          ∧ Time.Scan t (ScanValue.vPtrString none) = (t, none)
          ∧ Time.Scan t (ScanValue.vPtrBytes none) = (t, none))
      ∧ (∀ dt : DateTime, DateTime.Scan dt (ScanValue.vPtrTime none) = (dt, none)
          ∧ DateTime.Scan dt (ScanValue.vPtrString none) = (dt, none)
          ∧ DateTime.Scan dt (ScanValue.vPtrBytes none) = (dt, none)) :=
  ⟨fun _ => rfl, fun _ => ⟨rfl, rfl, rfl⟩, fun _ => ⟨rfl, rfl, rfl⟩⟩

/-- C10: a nil interface value matches no case of Time.Scan or
DateTime.Scan, which return the type-mismatch error and leave the receiver
unchanged; the same input makes Date.Scan succeed and reset the receiver
to zero. -/
theorem c10_scan_nil (t : Time) (dt : DateTime) (d : Date) :
    Time.Scan t ScanValue.vNil = (t, some (GoError.typeMismatch GoType.tNil))
      ∧ DateTime.Scan dt ScanValue.vNil = (dt, some (GoError.typeMismatch GoType.tNil))
      ∧ Date.Scan d ScanValue.vNil = (⟨0, 0, 0⟩, none) :=
  ⟨rfl, rfl, rfl⟩

/-- C8, counterexample: the claim's reason is false on the code — year 0 is
not outside the valid range: Date{0, 1, 1} has year 0 and is valid. -/
theorem c8_zero_valid_counterexample :
    (⟨0, 1, 1⟩ : Date).Year = 0 ∧ Date.IsValid ⟨0, 1, 1⟩ = true :=
  ⟨rfl, by decide⟩

set_option maxRecDepth 100000 in
/-- C8 (amended): IsZero and IsValid are never both true — not because year
0 is out of range, but because the zero Date has month 0 and day 0, which
recompose to November 30 of year -1 rather than to the zero value. -/
theorem c8_zero_never_valid (d : Date) (hz : d.IsZero = true) : d.IsValid = false := by
  obtain ⟨y, m, dd⟩ := d
  unfold Date.IsZero at hz
  simp only [Bool.and_eq_true, beq_iff_eq] at hz
  obtain ⟨⟨hy, hm⟩, hd⟩ := hz
  subst hy hm hd
  decide

/-- C8, witness: the zero Date. -/
theorem c8_zero_never_valid_witness : Date.IsValid ⟨0, 0, 0⟩ = false :=
  c8_zero_never_valid ⟨0, 0, 0⟩ (by decide)

/-- C4, counterexample: "2023-02-30" has the fixed-width YYYY-MM-DD shape
yet ParseDate rejects it (day out of range), so the shape alone does not
characterize success. -/
theorem c4_parsedate_counterexample :
    dateShape [50, 48, 50, 51, 45, 48, 50, 45, 51, 48] = true
      ∧ (ParseDate [50, 48, 50, 51, 45, 48, 50, 45, 51, 48]).2 ≠ none :=
  ⟨by decide, by decide⟩

/-- C4 (amended): ParseDate succeeds exactly on strings of the fixed-width
form YYYY-MM-DD whose month is 01..12 and whose day is within that month's
length; on every other string it fails with a single parse error carrying
the offending text. -/
theorem c4_parsedate_amended (s : GoStr) :
    ((ParseDate s).2 = none ↔ dateParseOK s = true)
      ∧ ((ParseDate s).2 ≠ none
          → ParseDate s = (⟨0, 0, 0⟩, some (GoError.parseErr dateLayout s))) := by
  refine ⟨ParseDate_success_iff s, ?_⟩
  intro h
  cases hp : parseDateFields s with
  | none => simp only [ParseDate, hp]
  | some p =>
      obtain ⟨y, mo, dd⟩ := p
      simp only [ParseDate, hp] at h
      simp at h

/-- C4, witness: "2014-08-20" satisfies the success characterization. -/
theorem c4_parsedate_witness :
    (ParseDate [50, 48, 49, 52, 45, 48, 56, 45, 50, 48]).2 = none :=
  (c4_parsedate_amended [50, 48, 49, 52, 45, 48, 56, 45, 50, 48]).1.mpr (by decide)

/-- C2, counterexample: the claim fails as stated for DateTime.  The
constructible (invalid) values 2023-01-32T00:00:00 and 2023-02-01T00:00:00
are structurally different, yet they normalize to the same instant, so
none of Before/After/structural-equality holds while Compare returns 0. -/
theorem c2_ordering_counterexample :
    DateTime.Before ⟨⟨2023, 1, 32⟩, ⟨0, 0, 0, 0⟩⟩ ⟨⟨2023, 2, 1⟩, ⟨0, 0, 0, 0⟩⟩ = false
      ∧ DateTime.After ⟨⟨2023, 1, 32⟩, ⟨0, 0, 0, 0⟩⟩ ⟨⟨2023, 2, 1⟩, ⟨0, 0, 0, 0⟩⟩ = false
      ∧ (⟨⟨2023, 1, 32⟩, ⟨0, 0, 0, 0⟩⟩ : DateTime) ≠ ⟨⟨2023, 2, 1⟩, ⟨0, 0, 0, 0⟩⟩
      ∧ DateTime.Compare ⟨⟨2023, 1, 32⟩, ⟨0, 0, 0, 0⟩⟩ ⟨⟨2023, 2, 1⟩, ⟨0, 0, 0, 0⟩⟩ = 0 :=
  ⟨by decide, by decide, by decide, by decide⟩

/-- C2 (amended): ordering consistency holds for all Date and Time pairs,
and for DateTime pairs of valid values: exactly one of Before/After/equality
holds, matched by Compare returning -1/+1/0, and Compare returns 0 exactly
on structural equality. -/
theorem c2_ordering_amended :
    (∀ a b : Date, (a.Before b = true ↔ a.Compare b = -1)
        ∧ (a.After b = true ↔ a.Compare b = 1)
        ∧ (a = b ↔ a.Compare b = 0)
        ∧ (a.Compare b = -1 ∨ a.Compare b = 0 ∨ a.Compare b = 1))
      ∧ (∀ a b : Time, (a.Before b = true ↔ a.Compare b = -1)
        ∧ (a.After b = true ↔ a.Compare b = 1)
        ∧ (a = b ↔ a.Compare b = 0)
        ∧ (a.Compare b = -1 ∨ a.Compare b = 0 ∨ a.Compare b = 1))
      ∧ (∀ a b : DateTime, a.IsValid = true → b.IsValid = true →
        (a.Before b = true ↔ a.Compare b = -1)
        ∧ (a.After b = true ↔ a.Compare b = 1)
        ∧ (a = b ↔ a.Compare b = 0)
        ∧ (a.Compare b = -1 ∨ a.Compare b = 0 ∨ a.Compare b = 1)) := by
  refine ⟨?_, ?_, ?_⟩
  · intro a b
    rcases dateBefore_trichotomy a b with ⟨h1, h2, h3⟩ | ⟨h1, h2, h3⟩ | ⟨h1, h2, h3⟩
    · simp [Date.Compare, Date.After, h1, h2, h3]
    · subst h3
      simp [Date.Compare, Date.After, h1]
    · simp [Date.Compare, Date.After, h1, h2, h3]
  · intro a b
    rcases timeBefore_trichotomy a b with ⟨h1, h2, h3⟩ | ⟨h1, h2, h3⟩ | ⟨h1, h2, h3⟩
    · simp [Time.Compare, Time.After, h1, h2, h3]
    · subst h3
      simp [Time.Compare, Time.After, h1]
    · simp [Time.Compare, Time.After, h1, h2, h3]
  · intro a b ha hb
    have hinj : a.In = b.In → a = b := by
      intro h
      rw [← DateTimeOf_In a ha, ← DateTimeOf_In b hb, h]
    unfold DateTime.Compare DateTime.After DateTime.Before goBefore goCompare
    rcases lt_trichotomy a.In b.In with h | h | h
    · have hne : a ≠ b := by
        intro he
        rw [he] at h
        exact lt_irrefl _ h
      simp [h, hne, asymm h]
    · have heq : a = b := hinj h
      simp [h, heq]
    · have hne : a ≠ b := by
        intro he
        rw [he] at h
        exact lt_irrefl _ h
      simp [h, hne, asymm h]

/-- C2, witness: the amended consistency at the valid values
2014-08-20T00:00:00 and 2014-08-21T00:00:00. -/
theorem c2_ordering_witness :
    (DateTime.Before ⟨⟨2014, 8, 20⟩, ⟨0, 0, 0, 0⟩⟩ ⟨⟨2014, 8, 21⟩, ⟨0, 0, 0, 0⟩⟩ = true
      ↔ DateTime.Compare ⟨⟨2014, 8, 20⟩, ⟨0, 0, 0, 0⟩⟩ ⟨⟨2014, 8, 21⟩, ⟨0, 0, 0, 0⟩⟩ = -1)
      ∧ (DateTime.After ⟨⟨2014, 8, 20⟩, ⟨0, 0, 0, 0⟩⟩ ⟨⟨2014, 8, 21⟩, ⟨0, 0, 0, 0⟩⟩ = true
      ↔ DateTime.Compare ⟨⟨2014, 8, 20⟩, ⟨0, 0, 0, 0⟩⟩ ⟨⟨2014, 8, 21⟩, ⟨0, 0, 0, 0⟩⟩ = 1)
      ∧ ((⟨⟨2014, 8, 20⟩, ⟨0, 0, 0, 0⟩⟩ : DateTime) = ⟨⟨2014, 8, 21⟩, ⟨0, 0, 0, 0⟩⟩
      ↔ DateTime.Compare ⟨⟨2014, 8, 20⟩, ⟨0, 0, 0, 0⟩⟩ ⟨⟨2014, 8, 21⟩, ⟨0, 0, 0, 0⟩⟩ = 0)
      ∧ (DateTime.Compare ⟨⟨2014, 8, 20⟩, ⟨0, 0, 0, 0⟩⟩ ⟨⟨2014, 8, 21⟩, ⟨0, 0, 0, 0⟩⟩ = -1
        ∨ DateTime.Compare ⟨⟨2014, 8, 20⟩, ⟨0, 0, 0, 0⟩⟩ ⟨⟨2014, 8, 21⟩, ⟨0, 0, 0, 0⟩⟩ = 0
        ∨ DateTime.Compare ⟨⟨2014, 8, 20⟩, ⟨0, 0, 0, 0⟩⟩ ⟨⟨2014, 8, 21⟩, ⟨0, 0, 0, 0⟩⟩ = 1) :=
  c2_ordering_amended.2.2 ⟨⟨2014, 8, 20⟩, ⟨0, 0, 0, 0⟩⟩ ⟨⟨2014, 8, 21⟩, ⟨0, 0, 0, 0⟩⟩
    (by decide) (by decide)

/-- C6, counterexample: a failing parse-based mutating operation does not
leave the target unchanged — Time.Scan of the unparsable string "xx" fails
and overwrites the receiver {5, 0, 0, 0} with the zero Time. -/
theorem c6_atomicity_counterexample :
    (Time.Scan ⟨5, 0, 0, 0⟩ (ScanValue.vString [120, 120])).2 ≠ none
      ∧ (Time.Scan ⟨5, 0, 0, 0⟩ (ScanValue.vString [120, 120])).1 ≠ ⟨5, 0, 0, 0⟩ :=
  ⟨by decide, by decide⟩

/-- C6 (amended): only Date.Scan is atomic on a parse error (target
unchanged); UnmarshalText on all three types, and the string/byte cases of
Time.Scan and DateTime.Scan, overwrite the target with the type's zero
value when parsing fails. -/
theorem c6_atomicity_amended (d : Date) (t : Time) (dt : DateTime) (s : GoStr)
    (h1 : (ParseDate s).2.isSome = true) (h2 : (ParseTime s).2.isSome = true)
    (h3 : (ParseDateTime s).2.isSome = true) :
    Date.Scan d (ScanValue.vString s) = (d, some (GoError.parseErr dateLayout s))
      ∧ Date.UnmarshalText d s = (⟨0, 0, 0⟩, some (GoError.parseErr dateLayout s))
      ∧ Time.Scan t (ScanValue.vString s)
          = (⟨0, 0, 0, 0⟩, some (GoError.parseErr timeLayout s))
      ∧ Time.UnmarshalText t s = (⟨0, 0, 0, 0⟩, some (GoError.parseErr timeLayout s))
      ∧ DateTime.Scan dt (ScanValue.vBytes s)
          = (⟨⟨0, 0, 0⟩, ⟨0, 0, 0, 0⟩⟩, some (GoError.parseErr dateTimeLayoutLower s))
      ∧ DateTime.UnmarshalText dt s
          = (⟨⟨0, 0, 0⟩, ⟨0, 0, 0, 0⟩⟩, some (GoError.parseErr dateTimeLayoutLower s)) := by
  have hd := ParseDate_fail s h1
  have ht := ParseTime_fail s h2
  have hdt := ParseDateTime_fail s h3
  refine ⟨?_, ?_, ?_, ?_, ?_, ?_⟩
  · simp only [Date.Scan, hd]
  · simp only [Date.UnmarshalText, hd]
  · simp only [Time.Scan, ht]
  · simp only [Time.UnmarshalText, ht]
  · simp only [DateTime.Scan, hdt]
  · simp only [DateTime.UnmarshalText, hdt]

/-- C6, witness: the amended behaviour on the unparsable one-byte string
"x" with concrete receivers. -/
theorem c6_atomicity_witness :
    Date.Scan ⟨2000, 1, 1⟩ (ScanValue.vString [120])
        = (⟨2000, 1, 1⟩, some (GoError.parseErr dateLayout [120]))
      ∧ Date.UnmarshalText ⟨2000, 1, 1⟩ [120]
          = (⟨0, 0, 0⟩, some (GoError.parseErr dateLayout [120]))
      ∧ Time.Scan ⟨5, 0, 0, 0⟩ (ScanValue.vString [120])
          = (⟨0, 0, 0, 0⟩, some (GoError.parseErr timeLayout [120]))
      ∧ Time.UnmarshalText ⟨5, 0, 0, 0⟩ [120]
          = (⟨0, 0, 0, 0⟩, some (GoError.parseErr timeLayout [120]))
      ∧ DateTime.Scan ⟨⟨2000, 1, 1⟩, ⟨5, 0, 0, 0⟩⟩ (ScanValue.vBytes [120])
          = (⟨⟨0, 0, 0⟩, ⟨0, 0, 0, 0⟩⟩, some (GoError.parseErr dateTimeLayoutLower [120]))
      ∧ DateTime.UnmarshalText ⟨⟨2000, 1, 1⟩, ⟨5, 0, 0, 0⟩⟩ [120]
          = (⟨⟨0, 0, 0⟩, ⟨0, 0, 0, 0⟩⟩, some (GoError.parseErr dateTimeLayoutLower [120])) :=
  c6_atomicity_amended ⟨2000, 1, 1⟩ ⟨5, 0, 0, 0⟩ ⟨⟨2000, 1, 1⟩, ⟨5, 0, 0, 0⟩⟩ [120]
    (by decide) (by decide) (by decide)

/-- C9, counterexample: the claim fails as stated for a Time whose
nanosecond field is outside its nominal range — formatting
Time{0, 0, 0, 1000000000} produces "00:00:00.1000000000" with ten
fractional digits, not exactly nine. -/
theorem c9_time_string_counterexample :
    Time.String ⟨0, 0, 0, 1000000000⟩
        = [48, 48, 58, 48, 48, 58, 48, 48, 46, 49, 48, 48, 48, 48, 48, 48, 48, 48, 48]
      ∧ (Time.String ⟨0, 0, 0, 1000000000⟩).length = 19 :=
  ⟨by decide, by decide⟩

/-- C9 (amended): for every Time whose fields are within their nominal
ranges (equivalently, every valid Time), String produces exactly the
two-digit zero-padded decimal renderings of hour, minute and second as
HH:MM:SS, with no fractional suffix when the nanosecond is 0, and otherwise
that form followed by '.' and exactly nine digit bytes whose decimal value
is the nanosecond field. -/
theorem c9_time_string_amended (t : Time) (hv : t.IsValid = true) :
    (t.Nanosecond = 0 →
        t.String = [48 + t.Hour.toNat / 10, 48 + t.Hour.toNat % 10, 58,
          48 + t.Minute.toNat / 10, 48 + t.Minute.toNat % 10, 58,
          48 + t.Second.toNat / 10, 48 + t.Second.toNat % 10])
      ∧ (t.Nanosecond ≠ 0 → ∃ frac,
          t.String = [48 + t.Hour.toNat / 10, 48 + t.Hour.toNat % 10, 58,
            48 + t.Minute.toNat / 10, 48 + t.Minute.toNat % 10, 58,
            48 + t.Second.toNat / 10, 48 + t.Second.toNat % 10] ++ 46 :: frac
          ∧ frac.length = 9 ∧ (∀ b ∈ frac, isDigitB b = true)
          ∧ digitsVal frac = t.Nanosecond) := by
  obtain ⟨hh1, hh2, hm1, hm2, hs1, hs2, hn1, hn2⟩ := (timeIsValid_iff t).mp hv
  have hH := fmtPad_two t.Hour hh1 (by omega)
  have hM := fmtPad_two t.Minute hm1 (by omega)
  have hS := fmtPad_two t.Second hs1 (by omega)
  constructor
  · intro hns
    unfold Time.String
    rw [hH, hM, hS, hns]
    simp
  · intro hns
    obtain ⟨hNd, hNl, hNv⟩ := fmtPad_spec 9 t.Nanosecond hn1 (by norm_num) (by norm_num; omega)
    refine ⟨fmtPad 9 t.Nanosecond, ?_, hNl, hNd, hNv⟩
    unfold Time.String
    rw [hH, hM, hS]
    rw [if_neg (by simpa using hns)]
    simp

/-- C9, witness: the amended form at 15:04:05 (the bytes of "15:04:05",
no fraction) and at 15:04:05.999000000 (nine fractional digits whose value
is 999000000). -/
theorem c9_time_string_witness :
    Time.String ⟨15, 4, 5, 0⟩ = [49, 53, 58, 48, 52, 58, 48, 53]
      ∧ ∃ frac, Time.String ⟨15, 4, 5, 999000000⟩
            = [49, 53, 58, 48, 52, 58, 48, 53] ++ 46 :: frac
          ∧ frac.length = 9 ∧ (∀ b ∈ frac, isDigitB b = true)
          ∧ digitsVal frac = 999000000 :=
  ⟨(c9_time_string_amended ⟨15, 4, 5, 0⟩ (by decide)).1 rfl,
   (c9_time_string_amended ⟨15, 4, 5, 999000000⟩ (by decide)).2 (by decide)⟩
